import Mathlib

/-!
Verification of the heading/title inference pipeline.

This file gives a shallow embedding of the pipeline's core components
(`level_determiner.py`, `heading_extractor.py`, `heading_filter.py`,
`accuracy_enhancer.py`, `pdf_extractor_modular.py`) and proves or refutes
the frozen claims about them.

Modelling conventions:
* Python `str` is modelled as `List Char`; character classes (`\d`, `\s`,
  `[A-Z]`, `str.lower`, `str.istitle`, ...) are modelled on the ASCII /
  Latin-1 fragment actually exercised by the texts the pipeline handles
  (the Python originals are Unicode-wide).
* Python floats are modelled as `ℚ`; all the arithmetic the claims touch is
  exact in decimal, so no rounding behaviour is lost.
* The anchored regular expressions of the source are compiled by hand into
  deterministic matchers (`munch1`/`one`/`lit` combinators).  For every
  pattern used, each greedy repetition is followed by a character class
  disjoint from the repeated one, so maximal munch is exact and the
  matchers are equivalent to Python `re.match`.
* External collaborators (PyMuPDF, scikit-learn's KMeans, `unicodedata`)
  are abstracted as explicit inputs: the k-means label vector is a
  parameter, as is the NFC-normalisation function.
-/

/-- Python `list.sort` is a stable sort; we model it with a stable insertion
sort parameterised by a boolean `le`. `insertStable` places `a` after every
element strictly smaller than it and before the first element that is not. -/
def insertStable (le : α → α → Bool) (a : α) : List α → List α
  | [] => [a]
  | b :: l => if le b a && !(le a b) then b :: insertStable le a l else a :: b :: l

/-- Stable sort: elements comparing equal keep their original order. -/
def sortStable (le : α → α → Bool) : List α → List α
  | [] => []
  | a :: l => insertStable le a (sortStable le l)

theorem insertStable_perm (le : α → α → Bool) (a : α) (l : List α) :
    List.Perm (insertStable le a l) (a :: l) := by
  induction l with
  | nil => simp [insertStable]
  | cons b t ih =>
    simp only [insertStable]
    split
    · exact ((ih.cons b).trans (List.Perm.swap a b t))
    · exact List.Perm.refl _

theorem sortStable_perm (le : α → α → Bool) (l : List α) :
    List.Perm (sortStable le l) l := by
  induction l with
  | nil => simp [sortStable]
  | cons a t ih => exact (insertStable_perm le a (sortStable le t)).trans (ih.cons a)

theorem sortStable_sorted (le : α → α → Bool)
    (htot : ∀ a b, le a b || le b a)
    (htrans : ∀ a b c, le a b → le b c → le a c)
    (l : List α) : (sortStable le l).Pairwise (fun a b => le a b = true) := by
  have hins : ∀ (a : α) (l : List α),
      l.Pairwise (fun a b => le a b = true) →
      (insertStable le a l).Pairwise (fun a b => le a b = true) := by
    intro a l
    induction l with
    | nil => intro _; simp [insertStable]
    | cons b t ih =>
      intro hp
      rw [List.pairwise_cons] at hp
      simp only [insertStable]
      split
      · rename_i hcond
        rw [Bool.and_eq_true, Bool.not_eq_true'] at hcond
        refine List.Pairwise.cons ?_ (ih hp.2)
        intro x hx
        rcases List.mem_cons.mp ((insertStable_perm le a t).mem_iff.mp hx) with hxa | hxt
        · subst hxa; exact hcond.1
        · exact hp.1 x hxt
      · rename_i hcond
        have hab : le a b = true := by
          cases h2 : le a b with
          | true => rfl
          | false =>
            cases h3 : le b a with
            | true =>
              exact absurd (show (le b a && !(le a b)) = true by rw [h3, h2]; rfl) hcond
            | false =>
              have := htot a b
              rw [h2, h3] at this
              simp at this
        refine List.Pairwise.cons ?_ (List.Pairwise.cons hp.1 hp.2)
        intro x hx
        rcases List.mem_cons.mp hx with hxb | hxt
        · subst hxb; exact hab
        · exact htrans a b x hab (hp.1 x hxt)
  induction l with
  | nil => simp [sortStable]
  | cons a t ih => exact hins a (sortStable le t) ih

/-! ### Character classes and string utilities -/

/-- `\d` (modelled on ASCII digits). -/
def isDig (c : Char) : Bool := 48 ≤ c.toNat && c.toNat ≤ 57

/-- `[A-Z]`. -/
def isUp (c : Char) : Bool := 65 ≤ c.toNat && c.toNat ≤ 90

/-- `[a-z]`. -/
def isLow (c : Char) : Bool := 97 ≤ c.toNat && c.toNat ≤ 122

/-- `[IVX]`. -/
def isRoman (c : Char) : Bool := c.toNat = 73 || c.toNat = 86 || c.toNat = 88

/-- `\s` and Python `str.split()` / `str.strip()` whitespace (ASCII part). -/
def isWs (c : Char) : Bool :=
  c.toNat = 32 || c.toNat = 9 || c.toNat = 10 || c.toNat = 13 || c.toNat = 11 || c.toNat = 12

/-- Python `str.lower` on the Latin-1 fragment (A-Z and À-Þ except ×). -/
def lowerChar (c : Char) : Char :=
  if isUp c then Char.ofNat (c.toNat + 32)
  else if 192 ≤ c.toNat && c.toNat ≤ 222 && !(c.toNat = 215) then Char.ofNat (c.toNat + 32)
  else c

def lowerStr (s : List Char) : List Char := s.map lowerChar

/-- Python `str.strip()`. -/
def pyStrip (s : List Char) : List Char :=
  ((s.dropWhile isWs).reverse.dropWhile isWs).reverse

/-- Python `str.split()` with no argument: split on whitespace runs,
dropping empty pieces (accumulator holds the current word reversed). -/
def splitWsAux : List Char → List Char → List (List Char)
  | [], acc => if acc.isEmpty then [] else [acc.reverse]
  | c :: cs, acc =>
    if isWs c then (if acc.isEmpty then splitWsAux cs [] else acc.reverse :: splitWsAux cs [])
    else splitWsAux cs (c :: acc)

def splitWs (s : List Char) : List (List Char) := splitWsAux s []

/-- `' '.join`. -/
def joinSp : List (List Char) → List Char
  | [] => []
  | [w] => w
  | w :: ws => w ++ ' ' :: joinSp ws

/-- `' '.join(s.split())`: whitespace normalisation as used by the source. -/
def normWs (s : List Char) : List Char := joinSp (splitWs s)

/-- Substring test, Python `needle in hay`. -/
def containsSub (hay needle : List Char) : Bool :=
  hay.tails.any (fun t => needle.isPrefixOf t)

/-- Count of a character in a string, Python `s.count(c)`. -/
def countChar (s : List Char) (c : Char) : Nat := s.countP (· == c)

/-- Python `s.istitle()` (ASCII-cased model): uppercase letters may only
follow uncased characters, lowercase only cased ones, and at least one
cased character must occur. -/
def isTitleAux : Bool → Bool → List Char → Bool
  | _, seen, [] => seen
  | prev, seen, c :: cs =>
    if isUp c then (if prev then false else isTitleAux true true cs)
    else if isLow c then (if prev then isTitleAux true true cs else false)
    else isTitleAux false seen cs

def pyIsTitle (s : List Char) : Bool := isTitleAux false false s

/-- Python `s.isupper()` (ASCII-cased model): no lowercase letter and at
least one cased (letter) character. -/
def pyIsUpper (s : List Char) : Bool :=
  s.any (fun c => isUp c || isLow c) && s.all (fun c => !isLow c)

/-- Python `c.isalnum()` (ASCII model). -/
def isAlnum (c : Char) : Bool := isDig c || isUp c || isLow c

/-! ### Deterministic matchers for the anchored regular expressions

`munch1 p` consumes one-or-more `p`-characters (maximal munch), `one p`
exactly one, `lit c` a literal character.  All the source's patterns follow
each repetition with a class disjoint from the repeated one, so these
matchers agree with Python's backtracking `re.match`. -/

def munch1 (p : Char → Bool) : List Char → Option (List Char)
  | [] => none
  | c :: cs => if p c then some (cs.dropWhile p) else none

def one (p : Char → Bool) : List Char → Option (List Char)
  | [] => none
  | c :: cs => if p c then some cs else none

def lit (c : Char) : List Char → Option (List Char) := one (· == c)

/-- Literal-prefix step for hand-compiled regexes. -/
def litSeq (w : List Char) (s : List Char) : Option (List Char) :=
  if w.isPrefixOf s then some (s.drop w.length) else none

theorem munch1_isSome_head {p : Char → Bool} {l : List Char} :
    (munch1 p l).isSome → ∃ c cs, l = c :: cs ∧ p c = true := by
  cases l with
  | nil => simp [munch1]
  | cons c cs =>
    simp only [munch1]
    split
    · rename_i h; intro _; exact ⟨c, cs, rfl, h⟩
    · simp

theorem one_isSome_head {p : Char → Bool} {l : List Char} :
    (one p l).isSome → ∃ c cs, l = c :: cs ∧ p c = true := by
  cases l with
  | nil => simp [one]
  | cons c cs =>
    simp only [one]
    split
    · rename_i h; intro _; exact ⟨c, cs, rfl, h⟩
    · simp

theorem bind_isSome {o : Option α} {f : α → Option β} :
    (o >>= f).isSome → ∃ a, o = some a ∧ (f a).isSome := by
  cases o with
  | none => simp
  | some a => intro h; exact ⟨a, rfl, h⟩

/-! ### Level determiner (`extractors/hierarchy/level_determiner.py`) -/

/-- `^\d+\.\s+[A-Z]` — "1. Introduction". -/
def pat_h1_num (s : List Char) : Bool :=
  (munch1 isDig s >>= lit '.' >>= munch1 isWs >>= one isUp).isSome

/-- `^\d+\.\d+\s+[A-Z]` — "1.1 Overview". -/
def pat_h2_num (s : List Char) : Bool :=
  (munch1 isDig s >>= lit '.' >>= munch1 isDig >>= munch1 isWs >>= one isUp).isSome

/-- `^\d+\.\d+\.\d+\s+[A-Z]` — "1.1.1 Details". -/
def pat_h3_num (s : List Char) : Bool :=
  (munch1 isDig s >>= lit '.' >>= munch1 isDig >>= lit '.' >>= munch1 isDig >>=
    munch1 isWs >>= one isUp).isSome

/-- `^[A-Z]\.\s+[A-Z]` — "A. Section". -/
def pat_letter (s : List Char) : Bool :=
  (one isUp s >>= lit '.' >>= munch1 isWs >>= one isUp).isSome

/-- `^[IVX]+\.\s+[A-Z]` — "I. Introduction". -/
def pat_roman (s : List Char) : Bool :=
  (munch1 isRoman s >>= lit '.' >>= munch1 isWs >>= one isUp).isSome

/-- `LevelDeterminer._get_structural_level`: the five checks in source
order, first match wins, `""` when none match. -/
def get_structural_level (text : List Char) : String :=
  if pat_h1_num text then "H1"
  else if pat_h2_num text then "H2"
  else if pat_h3_num text then "H3"
  else if pat_letter text then "H2"
  else if pat_roman text then "H1"
  else ""

def main_section_keywords : List (List Char) :=
  ["introduction".toList, "overview".toList, "background".toList, "conclusion".toList,
   "summary".toList, "methodology".toList, "results".toList, "discussion".toList,
   "references".toList, "appendix".toList]

def toc_keywords : List (List Char) :=
  ["table of contents".toList, "contents".toList, "revision history".toList,
   "references".toList]

/-- `LevelDeterminer._get_content_based_level`. -/
def get_content_based_level (text : List Char) : String :=
  let tl := lowerStr text
  if main_section_keywords.any (fun k => containsSub tl k) then "H1"
  else if toc_keywords.any (fun k => containsSub tl k) then "H2"
  else ""

/-! ### Candidate record and the remaining level-determination signals -/

/-- A PyMuPDF bounding box `(x0, y0, x1, y1)`. -/
structure Box where
  x0 : ℚ
  y0 : ℚ
  x1 : ℚ
  y1 : ℚ
deriving DecidableEq

/-- A reconstructed fragment / heading candidate as built by
`HeadingExtractor._reconstruct_text_blocks`: keys `text`, `size`, `bold`,
`page`, `length`, `bbox`. -/
structure Frag where
  text : List Char
  size : ℚ
  bold : Bool
  page : ℤ
  length : ℕ
  bboxOpt : Option Box
deriving DecidableEq

/-- An output heading `{level, text, page}` as built by
`LevelDeterminer.build_hierarchy`. -/
structure Heading where
  level : String
  text : List Char
  page : ℤ
deriving DecidableEq

/-- `LevelDeterminer._get_position_based_level`. -/
def get_position_based_level (c : Frag) : String :=
  if c.page ≤ 2 ∧ c.text.length < 50 then "H1" else ""

/-- `LevelDeterminer._get_score_based_level`. -/
def get_score_based_level (c : Frag) (all_candidates : List Frag) : String :=
  let font_sizes := all_candidates.map (·.size)
  let unique_sizes := sortStable (fun a b => decide (b ≤ a)) font_sizes.dedup
  let score : ℕ :=
    (if c.size ∈ unique_sizes.take 1 then 3
     else if c.size ∈ (unique_sizes.drop 1).take 1 then 2
     else if c.size ∈ (unique_sizes.drop 2).take 1 then 1
     else 0)
    + (if c.bold then 2 else 0)
    + (if c.text.length < 20 then 2 else if c.text.length < 40 then 1 else 0)
    + (if c.page ≤ 3 then 1 else 0)
    + (if pyIsTitle c.text || ((splitWs c.text).length ≤ 3 && pyIsUpper c.text) then 1
       else 0)
  if score ≥ 6 then "H1" else if score ≥ 4 then "H2" else "H3"

/-- `LevelDeterminer._determine_heading_level`: priority chain structural >
content > position > score. -/
def determine_heading_level (c : Frag) (all_candidates : List Frag) : String :=
  if get_structural_level c.text ≠ "" then get_structural_level c.text
  else if get_content_based_level c.text ≠ "" then get_content_based_level c.text
  else if get_position_based_level c ≠ "" then get_position_based_level c
  else get_score_based_level c all_candidates

/-- The y-coordinate used as secondary sort key:
`x['bbox'][1] if x['bbox'] else 0`. -/
def keyY (c : Frag) : ℚ := match c.bboxOpt with
  | some b => b.y0
  | none => 0

/-- The `(page, y)` lexicographic order used by
`candidates.sort(key=lambda x: (x['page'], x['bbox'][1] if x['bbox'] else 0))`. -/
def keyLe (a b : Frag) : Bool :=
  decide (a.page < b.page) || (decide (a.page = b.page) && decide (keyY a ≤ keyY b))

/-- `LevelDeterminer.build_hierarchy`: stable-sort by `(page, y)`, then
assign each candidate a level and emit `{level, text, page-1}` (0-based). -/
def build_hierarchy (candidates : List Frag) : List Heading :=
  if candidates.isEmpty then []
  else
    let sorted := sortStable keyLe candidates
    sorted.map (fun c => ⟨determine_heading_level c sorted, c.text, c.page - 1⟩)

/-! ### Claim C1: structural-level patterns -/

theorem isWs_isDig_false {c : Char} (h1 : isWs c = true) (h2 : isDig c = true) : False := by
  simp [isWs, isDig] at h1 h2
  omega

theorem isUp_isDig_false {c : Char} (h1 : isUp c = true) (h2 : isDig c = true) : False := by
  simp [isUp, isDig] at h1 h2
  omega

theorem isRoman_isDig_false {c : Char} (h1 : isRoman c = true) (h2 : isDig c = true) :
    False := by
  simp [isRoman, isDig] at h1 h2
  omega

theorem isWs_dot_false {c : Char} (h1 : isWs c = true) (h2 : (c == '.') = true) : False := by
  have : c = '.' := by exact eq_of_beq h2
  subst this
  simp [isWs] at h1

theorem isSome_some {o : Option α} {a : α} (h : o = some a) : o.isSome := by
  rw [h]; rfl

/-- Patterns 1-3 share the prefix `\d+\.`; decompose pattern 1 after it. -/
theorem pat_h1_num_parts {s : List Char} (h : pat_h1_num s = true) :
    ∃ r, (munch1 isDig s >>= lit '.') = some r ∧ (munch1 isWs r).isSome := by
  unfold pat_h1_num at h
  obtain ⟨x, hx, _⟩ := bind_isSome h
  exact bind_isSome (isSome_some hx)

theorem pat_h2_num_parts {s : List Char} (h : pat_h2_num s = true) :
    ∃ r, (munch1 isDig s >>= lit '.') = some r ∧ (munch1 isDig r).isSome := by
  unfold pat_h2_num at h
  obtain ⟨x, hx, _⟩ := bind_isSome h
  obtain ⟨y, hy, _⟩ := bind_isSome (isSome_some hx)
  exact bind_isSome (isSome_some hy)

theorem pat_h3_num_parts {s : List Char} (h : pat_h3_num s = true) :
    ∃ r, (munch1 isDig s >>= lit '.') = some r ∧ (munch1 isDig r).isSome := by
  unfold pat_h3_num at h
  obtain ⟨x, hx, _⟩ := bind_isSome h
  obtain ⟨y, hy, _⟩ := bind_isSome (isSome_some hx)
  obtain ⟨z, hz, _⟩ := bind_isSome (isSome_some hy)
  obtain ⟨w, hw, _⟩ := bind_isSome (isSome_some hz)
  exact bind_isSome (isSome_some hw)

/-- Deeper decomposition, after the shared `\d+\.\d+` prefix of patterns 2/3. -/
theorem pat_h2_num_parts2 {s : List Char} (h : pat_h2_num s = true) :
    ∃ r, ((munch1 isDig s >>= lit '.') >>= munch1 isDig) = some r ∧
      (munch1 isWs r).isSome := by
  unfold pat_h2_num at h
  obtain ⟨x, hx, _⟩ := bind_isSome h
  exact bind_isSome (isSome_some hx)

theorem pat_h3_num_parts2 {s : List Char} (h : pat_h3_num s = true) :
    ∃ r, ((munch1 isDig s >>= lit '.') >>= munch1 isDig) = some r ∧
      (lit '.' r).isSome := by
  unfold pat_h3_num at h
  obtain ⟨x, hx, _⟩ := bind_isSome h
  obtain ⟨y, hy, _⟩ := bind_isSome (isSome_some hx)
  obtain ⟨z, hz, _⟩ := bind_isSome (isSome_some hy)
  exact bind_isSome (isSome_some hz)

/-- A text matching any of patterns 1-3 starts with a digit. -/
theorem digDot_head {s : List Char} (h : (munch1 isDig s >>= lit '.').isSome) :
    ∃ c cs, s = c :: cs ∧ isDig c = true := by
  obtain ⟨r, hr, _⟩ := bind_isSome h
  exact munch1_isSome_head (isSome_some hr)

theorem pat_letter_head {s : List Char} (h : pat_letter s = true) :
    ∃ c cs, s = c :: cs ∧ isUp c = true := by
  unfold pat_letter at h
  obtain ⟨x, hx, _⟩ := bind_isSome h
  obtain ⟨y, hy, _⟩ := bind_isSome (isSome_some hx)
  obtain ⟨z, hz, _⟩ := bind_isSome (isSome_some hy)
  exact one_isSome_head (isSome_some hz)

theorem pat_roman_head {s : List Char} (h : pat_roman s = true) :
    ∃ c cs, s = c :: cs ∧ isRoman c = true := by
  unfold pat_roman at h
  obtain ⟨x, hx, _⟩ := bind_isSome h
  obtain ⟨y, hy, _⟩ := bind_isSome (isSome_some hx)
  obtain ⟨z, hz, _⟩ := bind_isSome (isSome_some hy)
  exact munch1_isSome_head (isSome_some hz)

theorem pat_h1_h2_excl {s : List Char} (h1 : pat_h1_num s = true)
    (h2 : pat_h2_num s = true) : False := by
  obtain ⟨r1, hr1, hws⟩ := pat_h1_num_parts h1
  obtain ⟨r2, hr2, hdig⟩ := pat_h2_num_parts h2
  rw [hr1] at hr2
  injection hr2 with hr2
  subst hr2
  obtain ⟨c, cs, hc, hcw⟩ := munch1_isSome_head hws
  obtain ⟨c', cs', hc', hcd⟩ := munch1_isSome_head hdig
  rw [hc] at hc'
  injection hc' with hcc _
  subst hcc
  exact isWs_isDig_false hcw hcd

theorem pat_h1_h3_excl {s : List Char} (h1 : pat_h1_num s = true)
    (h3 : pat_h3_num s = true) : False := by
  obtain ⟨r1, hr1, hws⟩ := pat_h1_num_parts h1
  obtain ⟨r2, hr2, hdig⟩ := pat_h3_num_parts h3
  rw [hr1] at hr2
  injection hr2 with hr2
  subst hr2
  obtain ⟨c, cs, hc, hcw⟩ := munch1_isSome_head hws
  obtain ⟨c', cs', hc', hcd⟩ := munch1_isSome_head hdig
  rw [hc] at hc'
  injection hc' with hcc _
  subst hcc
  exact isWs_isDig_false hcw hcd

theorem pat_h2_h3_excl {s : List Char} (h2 : pat_h2_num s = true)
    (h3 : pat_h3_num s = true) : False := by
  obtain ⟨r1, hr1, hws⟩ := pat_h2_num_parts2 h2
  obtain ⟨r2, hr2, hdot⟩ := pat_h3_num_parts2 h3
  rw [hr1] at hr2
  injection hr2 with hr2
  subst hr2
  obtain ⟨c, cs, hc, hcw⟩ := munch1_isSome_head hws
  obtain ⟨c', cs', hc', hcd⟩ := one_isSome_head hdot
  rw [hc] at hc'
  injection hc' with hcc _
  subst hcc
  exact isWs_dot_false hcw hcd

theorem num_letter_excl {s : List Char}
    (h : (munch1 isDig s >>= lit '.').isSome) (h4 : pat_letter s = true) : False := by
  obtain ⟨c, cs, hc, hcd⟩ := digDot_head h
  obtain ⟨c', cs', hc', hcu⟩ := pat_letter_head h4
  rw [hc] at hc'
  injection hc' with hcc _
  subst hcc
  exact isUp_isDig_false hcu hcd

theorem num_roman_excl {s : List Char}
    (h : (munch1 isDig s >>= lit '.').isSome) (h5 : pat_roman s = true) : False := by
  obtain ⟨c, cs, hc, hcd⟩ := digDot_head h
  obtain ⟨c', cs', hc', hcr⟩ := pat_roman_head h5
  rw [hc] at hc'
  injection hc' with hcc _
  subst hcc
  exact isRoman_isDig_false hcr hcd

theorem pat_h1_num_digDot {s : List Char} (h : pat_h1_num s = true) :
    (munch1 isDig s >>= lit '.').isSome := by
  obtain ⟨r, hr, _⟩ := pat_h1_num_parts h
  exact isSome_some hr

theorem pat_h2_num_digDot {s : List Char} (h : pat_h2_num s = true) :
    (munch1 isDig s >>= lit '.').isSome := by
  obtain ⟨r, hr, _⟩ := pat_h2_num_parts h
  exact isSome_some hr

theorem pat_h3_num_digDot {s : List Char} (h : pat_h3_num s = true) :
    (munch1 isDig s >>= lit '.').isSome := by
  obtain ⟨r, hr, _⟩ := pat_h3_num_parts h
  exact isSome_some hr

/-- C1, counterexample to the mutual-exclusivity part: the text
"I. Sample" matches both the lettered pattern (H2) and the roman pattern
(H1); since the lettered check runs first, the level is H2, so check order
does change the assigned level. -/
theorem C1_counterexample :
    pat_letter "I. Sample".toList = true ∧ pat_roman "I. Sample".toList = true ∧
      get_structural_level "I. Sample".toList = "H2" := by
  decide

/-- C1 (amended): `_get_structural_level` assigns the level of the first
matching of the five regexes in source order and returns `""` when none
match.  The five patterns are pairwise mutually exclusive EXCEPT the
lettered pattern `^[A-Z]\.\s+[A-Z]` and the roman pattern
`^[IVX]+\.\s+[A-Z]`, which overlap on single-letter roman prefixes; for
texts matching both, the earlier lettered check wins and the level is H2. -/
theorem C1_structural_level_first_match (text : List Char) :
    (pat_h1_num text = true → get_structural_level text = "H1") ∧
    (pat_h2_num text = true → get_structural_level text = "H2") ∧
    (pat_h3_num text = true → get_structural_level text = "H3") ∧
    (pat_letter text = true → get_structural_level text = "H2") ∧
    (pat_roman text = true → pat_letter text = false →
      get_structural_level text = "H1") ∧
    (pat_h1_num text = false → pat_h2_num text = false → pat_h3_num text = false →
      pat_letter text = false → pat_roman text = false →
      get_structural_level text = "") ∧
    ¬(pat_h1_num text = true ∧ pat_h2_num text = true) ∧
    ¬(pat_h1_num text = true ∧ pat_h3_num text = true) ∧
    ¬(pat_h1_num text = true ∧ pat_letter text = true) ∧
    ¬(pat_h1_num text = true ∧ pat_roman text = true) ∧
    ¬(pat_h2_num text = true ∧ pat_h3_num text = true) ∧
    ¬(pat_h2_num text = true ∧ pat_letter text = true) ∧
    ¬(pat_h2_num text = true ∧ pat_roman text = true) ∧
    ¬(pat_h3_num text = true ∧ pat_letter text = true) ∧
    ¬(pat_h3_num text = true ∧ pat_roman text = true) := by
  refine ⟨?_, ?_, ?_, ?_, ?_, ?_, ?_, ?_, ?_, ?_, ?_, ?_, ?_, ?_, ?_⟩
  · intro h1
    simp [get_structural_level, h1]
  · intro h2
    have h1 : pat_h1_num text = false := by
      cases h : pat_h1_num text
      · rfl
      · exact absurd (pat_h1_h2_excl h h2) (by simp)
    simp [get_structural_level, h1, h2]
  · intro h3
    have h1 : pat_h1_num text = false := by
      cases h : pat_h1_num text
      · rfl
      · exact absurd (pat_h1_h3_excl h h3) (by simp)
    have h2 : pat_h2_num text = false := by
      cases h : pat_h2_num text
      · rfl
      · exact absurd (pat_h2_h3_excl h h3) (by simp)
    simp [get_structural_level, h1, h2, h3]
  · intro h4
    have h1 : pat_h1_num text = false := by
      cases h : pat_h1_num text
      · rfl
      · exact absurd (num_letter_excl (pat_h1_num_digDot h) h4) (by simp)
    have h2 : pat_h2_num text = false := by
      cases h : pat_h2_num text
      · rfl
      · exact absurd (num_letter_excl (pat_h2_num_digDot h) h4) (by simp)
    have h3 : pat_h3_num text = false := by
      cases h : pat_h3_num text
      · rfl
      · exact absurd (num_letter_excl (pat_h3_num_digDot h) h4) (by simp)
    simp [get_structural_level, h1, h2, h3, h4]
  · intro h5 h4
    have h1 : pat_h1_num text = false := by
      cases h : pat_h1_num text
      · rfl
      · exact absurd (num_roman_excl (pat_h1_num_digDot h) h5) (by simp)
    have h2 : pat_h2_num text = false := by
      cases h : pat_h2_num text
      · rfl
      · exact absurd (num_roman_excl (pat_h2_num_digDot h) h5) (by simp)
    have h3 : pat_h3_num text = false := by
      cases h : pat_h3_num text
      · rfl
      · exact absurd (num_roman_excl (pat_h3_num_digDot h) h5) (by simp)
    simp [get_structural_level, h1, h2, h3, h4, h5]
  · intro h1 h2 h3 h4 h5
    simp [get_structural_level, h1, h2, h3, h4, h5]
  · rintro ⟨h1, h2⟩; exact pat_h1_h2_excl h1 h2
  · rintro ⟨h1, h3⟩; exact pat_h1_h3_excl h1 h3
  · rintro ⟨h1, h4⟩; exact num_letter_excl (pat_h1_num_digDot h1) h4
  · rintro ⟨h1, h5⟩; exact num_roman_excl (pat_h1_num_digDot h1) h5
  · rintro ⟨h2, h3⟩; exact pat_h2_h3_excl h2 h3
  · rintro ⟨h2, h4⟩; exact num_letter_excl (pat_h2_num_digDot h2) h4
  · rintro ⟨h2, h5⟩; exact num_roman_excl (pat_h2_num_digDot h2) h5
  · rintro ⟨h3, h4⟩; exact num_letter_excl (pat_h3_num_digDot h3) h4
  · rintro ⟨h3, h5⟩; exact num_roman_excl (pat_h3_num_digDot h3) h5

/-- Witness for C1: the amended theorem applied at concrete texts for each
of the five patterns. -/
theorem C1_structural_level_first_match_witness :
    (pat_h1_num "1. Introduction".toList = true ∧
      get_structural_level "1. Introduction".toList = "H1") ∧
    (pat_h2_num "1.1 Overview".toList = true ∧
      get_structural_level "1.1 Overview".toList = "H2") ∧
    (pat_h3_num "1.1.1 Details".toList = true ∧
      get_structural_level "1.1.1 Details".toList = "H3") ∧
    (pat_letter "A. Section".toList = true ∧
      get_structural_level "A. Section".toList = "H2") ∧
    (pat_roman "II. Scope".toList = true ∧ pat_letter "II. Scope".toList = false ∧
      get_structural_level "II. Scope".toList = "H1") :=
  ⟨⟨by decide, (C1_structural_level_first_match "1. Introduction".toList).1 (by decide)⟩,
   ⟨by decide, (C1_structural_level_first_match "1.1 Overview".toList).2.1 (by decide)⟩,
   ⟨by decide, (C1_structural_level_first_match "1.1.1 Details".toList).2.2.1 (by decide)⟩,
   ⟨by decide, (C1_structural_level_first_match "A. Section".toList).2.2.2.1 (by decide)⟩,
   ⟨by decide, by decide,
    (C1_structural_level_first_match "II. Scope".toList).2.2.2.2.1 (by decide) (by decide)⟩⟩

/-! ### Heading extractor (`extractors/heading_extractor.py`) -/

/-- A per-line record as collected by the first pass of
`_get_ml_heading_candidates`: keys `text`, `size`, `bold`, `bbox`, `y_pos`. -/
structure LineInfo where
  text : List Char
  size : ℚ
  bold : Bool
  bboxOpt : Option Box
  yPos : ℚ
deriving DecidableEq

/-- The configuration slice used by the heading extractor
(`config['extraction']`).  `clusterDivisor` models the `cluster_ratio`
option. -/
structure ExtractConfig where
  font_size_tolerance : ℚ
  grouping_distance : ℚ
  large_font_tolerance : ℚ
  large_font_distance : ℚ
  title_font_threshold : ℚ
  min_heading_size : ℚ
  large_font_threshold : ℚ
  max_simple_heading : ℕ
  min_clusters : ℕ
  max_clusters : ℕ
  clusterDivisor : ℕ

/-- The merge decision of `_reconstruct_text_blocks` for one adjacent pair:
font-size delta below tolerance, vertical gap below grouping distance and
identical bold state, with the relaxed large-font thresholds substituted
when both sizes exceed `title_font_threshold`. -/
def shouldMerge (cfg : ExtractConfig) (prevLine curLine : LineInfo) : Bool :=
  let y_distance := |curLine.yPos - prevLine.yPos|
  let same_style := curLine.bold == prevLine.bold
  if curLine.size > cfg.title_font_threshold && prevLine.size > cfg.title_font_threshold then
    (|curLine.size - prevLine.size| < cfg.large_font_tolerance) &&
      (y_distance < cfg.large_font_distance) && same_style
  else
    (|curLine.size - prevLine.size| < cfg.font_size_tolerance) &&
      (y_distance < cfg.grouping_distance) && same_style

/-- The grouping loop of `_reconstruct_text_blocks`: `prevLine` is the last
line of the current group (`current_group[-1]`), `revPrev` the earlier
lines of the group in reverse. -/
def groupLinesAux (cfg : ExtractConfig) (prevLine : LineInfo) (revPrev : List LineInfo) :
    List LineInfo → List (List LineInfo)
  | [] => [(prevLine :: revPrev).reverse]
  | l :: ls =>
    if shouldMerge cfg prevLine l then groupLinesAux cfg l (prevLine :: revPrev) ls
    else (prevLine :: revPrev).reverse :: groupLinesAux cfg l [] ls

/-- The partition of a page's lines into merge groups.  (The Python code
indexes `lines_info[0]` and is only called on non-empty pages; the empty
case is vacuous here.) -/
def groupLines (cfg : ExtractConfig) : List LineInfo → List (List LineInfo)
  | [] => []
  | l :: ls => groupLinesAux cfg l [] ls

/-- `HeadingExtractor._reconstruct_fragmented_text`. -/
def reconstruct_fragmented_text (group : List LineInfo) : List Char :=
  if group.isEmpty then []
  else normWs (pyStrip (joinSp (group.map (·.text))))

/-- Emission of one merge group by `_reconstruct_text_blocks`: fragments
whose combined text has length ≤ 5 are dropped.  Groups are never empty. -/
def flushGroup (group : List LineInfo) (pageNum : ℤ) : Option Frag :=
  match group with
  | [] => none
  | g0 :: _ =>
    let combined := reconstruct_fragmented_text group
    if combined.length > 5 then
      some ⟨combined, (group.map (·.size)).sum / (group.length : ℚ), g0.bold,
            pageNum + 1, combined.length, g0.bboxOpt⟩
    else none

/-- `HeadingExtractor._reconstruct_text_blocks`. -/
def reconstruct_text_blocks (cfg : ExtractConfig) (lines_info : List LineInfo)
    (page_num : ℤ) : List Frag :=
  (groupLines cfg lines_info).filterMap (fun g => flushGroup g page_num)

/-! ### Claim C4: fragment reconstruction groups lines exactly at the merge
conditions -/

/-- Consecutive groups are separated by a failing merge condition. -/
def breakRel (cfg : ExtractConfig) (g1 g2 : List LineInfo) : Prop :=
  ∀ a b, g1.getLast? = some a → g2.head? = some b → shouldMerge cfg a b = false

theorem groupLinesAux_head (cfg : ExtractConfig) (ls : List LineInfo)
    (p : LineInfo) (rp : List LineInfo) :
    ∃ t gs', groupLinesAux cfg p rp ls = ((p :: rp).reverse ++ t) :: gs' := by
  induction ls generalizing p rp with
  | nil => exact ⟨[], [], by simp [groupLinesAux]⟩
  | cons l ls ih =>
    simp only [groupLinesAux]
    split
    · obtain ⟨t, gs', h⟩ := ih l (p :: rp)
      refine ⟨l :: t, gs', ?_⟩
      rw [h]
      simp
    · refine ⟨[], groupLinesAux cfg l [] ls, ?_⟩
      simp

theorem groupLinesAux_spec (cfg : ExtractConfig) (ls : List LineInfo)
    (p : LineInfo) (rp : List LineInfo) :
    (groupLinesAux cfg p rp ls).flatten = (p :: rp).reverse ++ ls ∧
    (∀ g ∈ groupLinesAux cfg p rp ls, g ≠ []) ∧
    (List.Chain' (fun a b => shouldMerge cfg a b = true) ((p :: rp).reverse) →
      ∀ g ∈ groupLinesAux cfg p rp ls,
        List.Chain' (fun a b => shouldMerge cfg a b = true) g) ∧
    List.Chain' (breakRel cfg) (groupLinesAux cfg p rp ls) := by
  induction ls generalizing p rp with
  | nil =>
    refine ⟨by simp [groupLinesAux], by simp [groupLinesAux], ?_, by simp [groupLinesAux]⟩
    intro hch g hg
    simp only [groupLinesAux, List.mem_singleton] at hg
    subst hg
    exact hch
  | cons l ls ih =>
    simp only [groupLinesAux]
    split
    · rename_i hm
      obtain ⟨hjoin, hne, hchain, hbrk⟩ := ih l (p :: rp)
      refine ⟨?_, hne, ?_, hbrk⟩
      · rw [hjoin]; simp
      · intro hch
        refine hchain ?_
        have : (l :: p :: rp).reverse = (p :: rp).reverse ++ [l] := by simp
        rw [this, List.chain'_append]
        refine ⟨hch, List.chain'_singleton l, ?_⟩
        intro x hx y hy
        simp only [List.head?_cons, Option.mem_def, Option.some_inj] at hy
        subst hy
        rw [List.getLast?_reverse] at hx
        simp only [List.head?_cons, Option.mem_def, Option.some_inj] at hx
        subst hx
        exact hm
    · rename_i hm
      obtain ⟨hjoin, hne, hchain, hbrk⟩ := ih l []
      refine ⟨?_, ?_, ?_, ?_⟩
      · rw [List.flatten_cons, hjoin]
        simp
      · intro g hg
        rcases List.mem_cons.mp hg with h | h
        · subst h; simp
        · exact hne g h
      · intro hch g hg
        rcases List.mem_cons.mp hg with h | h
        · subst h; exact hch
        · exact hchain (List.chain'_singleton l) g h
      · rw [List.chain'_cons']
        refine ⟨?_, hbrk⟩
        intro g hg
        obtain ⟨t, gs', hrep⟩ := groupLinesAux_head cfg ls l []
        rw [hrep] at hg
        simp only [List.head?_cons, Option.mem_def, Option.some_inj] at hg
        subst hg
        intro a b ha hb
        rw [List.getLast?_reverse] at ha
        simp only [List.head?_cons, Option.mem_def, Option.some_inj] at ha
        subst ha
        simp only [List.reverse_cons, List.reverse_nil, List.nil_append,
          List.cons_append, List.head?_cons, Option.mem_def, Option.some_inj] at hb
        subst hb
        simpa using hm

theorem groupLinesAux_all_merge (cfg : ExtractConfig) (ls : List LineInfo)
    (p : LineInfo) (rp : List LineInfo)
    (h : List.Chain' (fun a b => shouldMerge cfg a b = true) (p :: ls)) :
    groupLinesAux cfg p rp ls = [(p :: rp).reverse ++ ls] := by
  induction ls generalizing p rp with
  | nil => simp [groupLinesAux]
  | cons l ls ih =>
    rw [List.chain'_cons] at h
    simp only [groupLinesAux, h.1, if_true]
    rw [ih l (p :: rp) h.2]
    simp

/-- C4: in `_reconstruct_text_blocks`, for every page the lines are
partitioned into maximal runs: the merge groups concatenate back to the
input, adjacent lines inside one group always satisfy the merge condition,
adjacent lines across a group boundary always fail it, and the merge
condition is exactly (font-size delta < tolerance ∧ vertical gap <
grouping distance ∧ identical bold state), with the relaxed large-font
pair substituted when both sizes exceed the title-font threshold.  Three
consecutive pairwise-mergeable lines therefore end up in a single group,
and become a single emitted fragment whenever the combined text is longer
than 5 characters. -/
theorem C4_reconstruct_merge_condition (cfg : ExtractConfig) (l : LineInfo)
    (ls : List LineInfo) :
    (groupLines cfg (l :: ls)).flatten = l :: ls ∧
    (∀ g ∈ groupLines cfg (l :: ls), g ≠ []) ∧
    (∀ g ∈ groupLines cfg (l :: ls),
      List.Chain' (fun a b => shouldMerge cfg a b = true) g) ∧
    List.Chain' (breakRel cfg) (groupLines cfg (l :: ls)) ∧
    (∀ prevLine curLine : LineInfo, shouldMerge cfg prevLine curLine = true ↔
      (if curLine.size > cfg.title_font_threshold ∧
          prevLine.size > cfg.title_font_threshold then
        |curLine.size - prevLine.size| < cfg.large_font_tolerance ∧
          |curLine.yPos - prevLine.yPos| < cfg.large_font_distance ∧
          curLine.bold = prevLine.bold
      else
        |curLine.size - prevLine.size| < cfg.font_size_tolerance ∧
          |curLine.yPos - prevLine.yPos| < cfg.grouping_distance ∧
          curLine.bold = prevLine.bold)) ∧
    (List.Chain' (fun a b => shouldMerge cfg a b = true) (l :: ls) →
      groupLines cfg (l :: ls) = [l :: ls] ∧
      (∀ page_num : ℤ, 5 < (reconstruct_fragmented_text (l :: ls)).length →
        reconstruct_text_blocks cfg (l :: ls) page_num =
          [⟨reconstruct_fragmented_text (l :: ls),
            ((l :: ls).map (·.size)).sum / ((l :: ls).length : ℚ), l.bold,
            page_num + 1, (reconstruct_fragmented_text (l :: ls)).length,
            l.bboxOpt⟩])) := by
  obtain ⟨hjoin, hne, hchain, hbrk⟩ := groupLinesAux_spec cfg ls l []
  refine ⟨by simpa [groupLines] using hjoin,
          by simpa [groupLines] using hne,
          ?_, by simpa [groupLines] using hbrk, ?_, ?_⟩
  · intro g hg
    exact hchain (by simp) g (by simpa [groupLines] using hg)
  · intro prevLine curLine
    simp only [shouldMerge]
    split
    · rename_i h
      constructor
      · intro hb
        simp only [Bool.and_eq_true, decide_eq_true_eq, beq_iff_eq] at hb
        rw [if_pos (by simpa using h)]
        exact ⟨hb.1.1, hb.1.2, hb.2⟩
      · intro hp
        rw [if_pos (by simpa using h)] at hp
        simp only [Bool.and_eq_true, decide_eq_true_eq, beq_iff_eq]
        exact ⟨⟨hp.1, hp.2.1⟩, hp.2.2⟩
    · rename_i h
      constructor
      · intro hb
        simp only [Bool.and_eq_true, decide_eq_true_eq, beq_iff_eq] at hb
        rw [if_neg (by simpa using h)]
        exact ⟨hb.1.1, hb.1.2, hb.2⟩
      · intro hp
        rw [if_neg (by simpa using h)] at hp
        simp only [Bool.and_eq_true, decide_eq_true_eq, beq_iff_eq]
        exact ⟨⟨hp.1, hp.2.1⟩, hp.2.2⟩
  · intro hall
    have hgrp : groupLines cfg (l :: ls) = [l :: ls] := by
      simp only [groupLines]
      rw [groupLinesAux_all_merge cfg ls l [] hall]
      simp
    refine ⟨hgrp, ?_⟩
    intro page_num hlen
    simp only [reconstruct_text_blocks, hgrp, List.filterMap_cons, List.filterMap_nil]
    simp only [flushGroup]
    rw [if_pos hlen]

/-- The default configuration values of `config/extractor_config.py`
relevant to the heading extractor. -/
def defaultExtractConfig : ExtractConfig :=
  { font_size_tolerance := 2
    grouping_distance := 30
    large_font_tolerance := 3
    large_font_distance := 40
    title_font_threshold := 20
    min_heading_size := 11
    large_font_threshold := 14
    max_simple_heading := 100
    min_clusters := 2
    max_clusters := 5
    clusterDivisor := 3 }

def lineW1 : LineInfo := ⟨"Heading".toList, 12, false, none, 0⟩

def lineW2 : LineInfo := ⟨"continued".toList, 12, false, none, 10⟩

def lineW3 : LineInfo := ⟨"more".toList, 12, false, none, 20⟩

/-- Witness for C4: three concrete same-style, same-size, vertically close
lines merge into a single fragment. -/
theorem C4_reconstruct_merge_condition_witness :
    List.Chain' (fun a b => shouldMerge defaultExtractConfig a b = true)
      [lineW1, lineW2, lineW3] ∧
    groupLines defaultExtractConfig [lineW1, lineW2, lineW3] =
      [[lineW1, lineW2, lineW3]] ∧
    reconstruct_fragmented_text [lineW1, lineW2, lineW3] =
      "Heading continued more".toList ∧
    reconstruct_text_blocks defaultExtractConfig [lineW1, lineW2, lineW3] 0 =
      [⟨reconstruct_fragmented_text [lineW1, lineW2, lineW3],
        (([lineW1, lineW2, lineW3].map (·.size)).sum : ℚ) / 3, false, 1,
        (reconstruct_fragmented_text [lineW1, lineW2, lineW3]).length, none⟩] := by
  have hch : List.Chain' (fun a b => shouldMerge defaultExtractConfig a b = true)
      [lineW1, lineW2, lineW3] := by
    simp only [List.chain'_cons, List.chain'_singleton, and_true]
    constructor
    · simp only [shouldMerge, lineW1, lineW2, defaultExtractConfig]
      norm_num
    · simp only [shouldMerge, lineW2, lineW3, defaultExtractConfig]
      norm_num
  have h := C4_reconstruct_merge_condition defaultExtractConfig lineW1 [lineW2, lineW3]
  have hlen : 5 < (reconstruct_fragmented_text [lineW1, lineW2, lineW3]).length := by
    decide
  have hflush := (h.2.2.2.2.2 hch).2 0 hlen
  refine ⟨hch, (h.2.2.2.2.2 hch).1, by decide, ?_⟩
  rw [hflush]
  simp [lineW1]

/-! ### Candidate clustering (`_cluster_headings`, `_select_heading_candidates`)

scikit-learn's `KMeans.fit_predict` is an external collaborator; its label
vector is taken as an input `assign` (one label per fragment). -/

def cluster_section_keywords : List (List Char) :=
  ["introduction".toList, "overview".toList, "conclusion".toList, "summary".toList,
   "background".toList, "methodology".toList, "results".toList, "discussion".toList,
   "references".toList]

/-- `HeadingExtractor._calculate_cluster_score` (the `avg_size`,
`avg_length` and `bold_ratio` arguments are computed from the cluster's
members exactly as in `_select_heading_candidates`). -/
def calculate_cluster_score (cfg : ExtractConfig) (texts : List Frag) : ℕ :=
  let avg_size : ℚ := (texts.map (·.size)).sum / (texts.length : ℚ)
  let avg_length : ℚ := ((texts.map (·.length)).sum : ℚ) / (texts.length : ℚ)
  let boldFrac : ℚ := ((texts.countP (·.bold)) : ℚ) / (texts.length : ℚ)
  let earlyPageFrac : ℚ := ((texts.countP (fun t => t.page ≤ 3)) : ℚ) / (texts.length : ℚ)
  let titleCaseFrac : ℚ := ((texts.countP (fun t => pyIsTitle t.text)) : ℚ) / (texts.length : ℚ)
  (if avg_size > cfg.large_font_threshold then 3
   else if avg_size > cfg.min_heading_size then 2 else 0)
  + (if avg_length < 30 then 3
     else if avg_length < (cfg.max_simple_heading : ℚ) then 2 else 0)
  + (if boldFrac > 7/10 then 3 else if boldFrac > 3/10 then 2 else 0)
  + (if texts.any (fun t => (munch1 isDig t.text >>= lit '.').isSome) then 4 else 0)
  + (if texts.any (fun t =>
        cluster_section_keywords.any (fun k => containsSub (lowerStr t.text) k))
     then 3 else 0)
  + (if earlyPageFrac > 1/2 then 2 else 0)
  + (if titleCaseFrac > 1/2 then 2 else 0)

/-- One step of the `defaultdict(list)` grouping in
`_select_heading_candidates`: append `t` to the entry for key `id`,
creating it at the end on first occurrence (Python dicts preserve
insertion order). -/
def addToCluster (stats : List (ℕ × List Frag)) (id : ℕ) (t : Frag) :
    List (ℕ × List Frag) :=
  match stats with
  | [] => [(id, [t])]
  | (k, ts) :: rest =>
    if k = id then (k, ts ++ [t]) :: rest else (k, ts) :: addToCluster rest id t

/-- `cluster_stats`: group the fragments by their k-means label. -/
def clusterStats (assign : List ℕ) (all_texts : List Frag) : List (ℕ × List Frag) :=
  (List.zip assign all_texts).foldl (fun st p => addToCluster st p.1 p.2) []

/-- `HeadingExtractor._select_heading_candidates`: clusters scoring ≥ 5
contribute all their member fragments, in cluster order. -/
def select_heading_candidates (cfg : ExtractConfig) (all_texts : List Frag)
    (assign : List ℕ) : List Frag :=
  (clusterStats assign all_texts).flatMap
    (fun e => if calculate_cluster_score cfg e.2 ≥ 5 then e.2 else [])

/-- `HeadingExtractor._cluster_headings` (feature building and
standardisation only feed the external k-means, so they do not appear;
`n_clusters = min(max_clusters, len(all_texts) // cluster_ratio)`). -/
def cluster_headings (cfg : ExtractConfig) (assign : List ℕ)
    (all_texts : List Frag) : List Frag :=
  let n_clusters := min cfg.max_clusters (all_texts.length / cfg.clusterDivisor)
  if n_clusters < cfg.min_clusters then all_texts
  else select_heading_candidates cfg all_texts assign

/-- `HeadingExtractor._get_ml_heading_candidates`, abstracted over the
per-page reconstruction (its `all_texts` argument is the concatenation of
`_reconstruct_text_blocks` over the document's pages) and the k-means
labels. -/
def get_ml_heading_candidates (cfg : ExtractConfig) (assign : List ℕ)
    (all_texts : List Frag) : List Frag :=
  if all_texts.length < 5 then all_texts
  else cluster_headings cfg assign all_texts

/-! ### Claim C5: correctness of the grouping fold, and all-or-none
cluster selection -/

/-- The members of cluster `id`, in document order. -/
def membersOf (pairs : List (ℕ × Frag)) (id : ℕ) : List Frag :=
  (pairs.filter (fun p => p.1 == id)).map (·.2)

/-- Keys in order of first occurrence. -/
def firstOccs (l : List ℕ) : List ℕ :=
  l.foldl (fun acc x => if x ∈ acc then acc else acc ++ [x]) []

theorem mem_foldl_firstOccs (l : List ℕ) (acc : List ℕ) (x : ℕ) :
    x ∈ l.foldl (fun acc x => if x ∈ acc then acc else acc ++ [x]) acc ↔
      x ∈ acc ∨ x ∈ l := by
  induction l generalizing acc with
  | nil => simp
  | cons y ys ih =>
    simp only [List.foldl_cons]
    rw [ih]
    by_cases hy : y ∈ acc
    · simp only [if_pos hy]
      constructor
      · rintro (h | h)
        · exact Or.inl h
        · exact Or.inr (List.mem_cons_of_mem y h)
      · rintro (h | h)
        · exact Or.inl h
        · rcases List.mem_cons.mp h with h | h
          · subst h; exact Or.inl hy
          · exact Or.inr h
    · simp only [if_neg hy, List.mem_append, List.mem_singleton]
      constructor
      · rintro ((h | h) | h)
        · exact Or.inl h
        · subst h; exact Or.inr (List.mem_cons_self _ _)
        · exact Or.inr (List.mem_cons_of_mem y h)
      · rintro (h | h)
        · exact Or.inl (Or.inl h)
        · rcases List.mem_cons.mp h with h | h
          · exact Or.inl (Or.inr h)
          · exact Or.inr h

theorem mem_firstOccs (l : List ℕ) (x : ℕ) : x ∈ firstOccs l ↔ x ∈ l := by
  rw [firstOccs, mem_foldl_firstOccs]
  simp

theorem firstOccs_append_singleton (l : List ℕ) (x : ℕ) :
    firstOccs (l ++ [x]) =
      if x ∈ l then firstOccs l else firstOccs l ++ [x] := by
  simp only [firstOccs, List.foldl_append, List.foldl_cons, List.foldl_nil]
  by_cases hx : x ∈ l
  · rw [if_pos ((mem_foldl_firstOccs l [] x).mpr (Or.inr hx)), if_pos hx]
  · rw [if_neg (fun h => hx (((mem_foldl_firstOccs l [] x).mp h).resolve_left
      (by simp))), if_neg hx]

theorem firstOccs_nodup (l : List ℕ) : (firstOccs l).Nodup := by
  have : ∀ acc : List ℕ, acc.Nodup →
      (l.foldl (fun acc x => if x ∈ acc then acc else acc ++ [x]) acc).Nodup := by
    induction l with
    | nil => intro acc h; exact h
    | cons y ys ih =>
      intro acc h
      simp only [List.foldl_cons]
      by_cases hy : y ∈ acc
      · rw [if_pos hy]; exact ih acc h
      · rw [if_neg hy]
        refine ih _ ?_
        simp [List.nodup_append, h, hy]
  exact this [] List.nodup_nil

/-- `membersOf` over an extension by one pair. -/
theorem membersOf_append (l : List (ℕ × Frag)) (id : ℕ) (t : Frag) (k : ℕ) :
    membersOf (l ++ [(id, t)]) k =
      membersOf l k ++ (if k = id then [t] else []) := by
  simp only [membersOf, List.filter_append, List.map_append]
  congr 1
  by_cases hk : k = id
  · subst hk; simp
  · simp [List.filter_cons, hk, Ne.symm hk]

theorem membersOf_not_mem (l : List (ℕ × Frag)) (id : ℕ)
    (h : id ∉ l.map (·.1)) : membersOf l id = [] := by
  simp only [membersOf, List.map_eq_nil_iff]
  rw [List.filter_eq_nil_iff]
  intro p hp
  simp only [beq_iff_eq]
  intro hpe
  exact h (List.mem_map.mpr ⟨p, hp, hpe⟩)

/-- `addToCluster` acting on a coherent association list. -/
theorem addToCluster_map (ks : List ℕ) (hnd : ks.Nodup) (m : ℕ → List Frag)
    (id : ℕ) (t : Frag) :
    addToCluster (ks.map (fun k => (k, m k))) id t =
      if id ∈ ks then ks.map (fun k => (k, m k ++ if k = id then [t] else []))
      else ks.map (fun k => (k, m k)) ++ [(id, [t])] := by
  induction ks with
  | nil => simp [addToCluster]
  | cons k ks ih =>
    obtain ⟨hk_not, hnd'⟩ := List.nodup_cons.mp hnd
    simp only [List.map_cons, addToCluster]
    by_cases hk : k = id
    · rw [if_pos hk, if_pos (List.mem_cons.mpr (Or.inl hk.symm)), if_pos hk]
      congr 1
      symm
      apply List.map_congr_left
      intro k' hk'
      have hne : k' ≠ id := by
        intro he
        apply hk_not
        rw [hk, ← he]
        exact hk'
      simp [hne]
    · rw [if_neg hk, ih hnd']
      by_cases hid : id ∈ ks
      · rw [if_pos hid, if_pos (List.mem_cons_of_mem k hid)]
        simp [hk]
      · have : id ∉ k :: ks := by
          intro h
          rcases List.mem_cons.mp h with h | h
          · exact hk h.symm
          · exact hid h
        rw [if_neg hid, if_neg this]
        simp

/-- The coherent association list for a processed prefix of pairs. -/
def coherentStats (l : List (ℕ × Frag)) : List (ℕ × List Frag) :=
  (firstOccs (l.map (·.1))).map (fun id => (id, membersOf l id))

theorem addToCluster_coherent (l : List (ℕ × Frag)) (id : ℕ) (t : Frag) :
    addToCluster (coherentStats l) id t = coherentStats (l ++ [(id, t)]) := by
  unfold coherentStats
  rw [addToCluster_map _ (firstOccs_nodup _) _ id t]
  have hmap : (l ++ [(id, t)]).map (·.1) = l.map (·.1) ++ [id] := by simp
  rw [hmap, firstOccs_append_singleton]
  by_cases hid : id ∈ l.map (·.1)
  · rw [if_pos ((mem_firstOccs _ _).mpr hid), if_pos hid]
    apply List.map_congr_left
    intro k _
    rw [membersOf_append]
  · rw [if_neg (fun h => hid ((mem_firstOccs _ _).mp h)), if_neg hid,
      List.map_append]
    congr 1
    · apply List.map_congr_left
      intro k hk
      have hkne : k ≠ id := fun he => hid (he ▸ (mem_firstOccs _ _).mp hk)
      rw [membersOf_append]
      simp [hkne]
    · simp only [List.map_cons, List.map_nil, List.cons.injEq, and_true,
        Prod.mk.injEq, true_and]
      rw [membersOf_append, membersOf_not_mem l id hid]
      simp

theorem clusterStats_foldl_coherent (pairs : List (ℕ × Frag)) :
    ∀ processed : List (ℕ × Frag),
      pairs.foldl (fun st p => addToCluster st p.1 p.2) (coherentStats processed) =
        coherentStats (processed ++ pairs) := by
  induction pairs with
  | nil => intro processed; simp
  | cons p ps ih =>
    intro processed
    simp only [List.foldl_cons]
    have h1 : addToCluster (coherentStats processed) p.1 p.2 =
        coherentStats (processed ++ [p]) := by
      have := addToCluster_coherent processed p.1 p.2
      simpa using this
    rw [h1, ih (processed ++ [p])]
    simp

/-- `cluster_stats` is the coherent grouping: keys in first-occurrence
order, each paired with its members in document order. -/
theorem clusterStats_eq (assign : List ℕ) (all_texts : List Frag) :
    clusterStats assign all_texts =
      (firstOccs ((assign.zip all_texts).map (·.1))).map
        (fun id => (id, membersOf (assign.zip all_texts) id)) := by
  have h0 : coherentStats ([] : List (ℕ × Frag)) = [] := rfl
  have := clusterStats_foldl_coherent (assign.zip all_texts) []
  rw [h0] at this
  simpa [clusterStats, coherentStats] using this

/-- C5: clustering has total fallback behaviour.  Fewer than 5 fragments:
all are returned unchanged.  Otherwise, with
`k = min(max_clusters, count // cluster_ratio)`, if `k < min_clusters` all
fragments are returned unchanged; otherwise the candidates are exactly the
concatenation, over clusters in first-appearance order, of the full member
list of every cluster whose composite score is at least 5 — each cluster
contributes either all of its members or none. -/
theorem C5_clustering_total_fallback (cfg : ExtractConfig) (assign : List ℕ)
    (all_texts : List Frag) :
    (all_texts.length < 5 →
      get_ml_heading_candidates cfg assign all_texts = all_texts) ∧
    (¬ all_texts.length < 5 →
      min cfg.max_clusters (all_texts.length / cfg.clusterDivisor) <
        cfg.min_clusters →
      get_ml_heading_candidates cfg assign all_texts = all_texts) ∧
    (¬ all_texts.length < 5 →
      ¬ min cfg.max_clusters (all_texts.length / cfg.clusterDivisor) <
        cfg.min_clusters →
      get_ml_heading_candidates cfg assign all_texts =
        (firstOccs ((assign.zip all_texts).map (·.1))).flatMap
          (fun id =>
            if calculate_cluster_score cfg (membersOf (assign.zip all_texts) id) ≥ 5
            then membersOf (assign.zip all_texts) id else [])) := by
  refine ⟨?_, ?_, ?_⟩
  · intro h
    simp [get_ml_heading_candidates, h]
  · intro h hk
    simp [get_ml_heading_candidates, h, cluster_headings, hk]
  · intro h hk
    simp only [get_ml_heading_candidates, if_neg h, cluster_headings, if_neg hk,
      select_heading_candidates, clusterStats_eq]
    rw [List.flatMap_map]

def fragH1 : Frag :=
  ⟨"1. Introduction".toList, 16, true, 1, "1. Introduction".toList.length, none⟩

def fragH2 : Frag :=
  ⟨"2. Background".toList, 16, true, 1, "2. Background".toList.length, none⟩

def fragH3 : Frag :=
  ⟨"3. Summary".toList, 16, true, 2, "3. Summary".toList.length, none⟩

def fragB1 : Frag :=
  ⟨"the quick brown fox jumps over the lazy dog again".toList, 10, false, 4,
   "the quick brown fox jumps over the lazy dog again".toList.length, none⟩

def fragB2 : Frag :=
  ⟨"a second run of plain body text with no heading cues".toList, 10, false, 4,
   "a second run of plain body text with no heading cues".toList.length, none⟩

def fragB3 : Frag :=
  ⟨"yet another stretch of ordinary prose for the test".toList, 10, false, 5,
   "yet another stretch of ordinary prose for the test".toList.length, none⟩

/-- Witness for C5: with the default configuration, a 1-fragment document
skips clustering, a 5-fragment document falls back because `k = 1 < 2`,
and a 6-fragment document with labels `[0,0,0,1,1,1]` keeps exactly the
members of the heading-like cluster (score 20 ≥ 5 > 2). -/
theorem C5_clustering_total_fallback_witness :
    ([fragH1].length < 5 ∧
      get_ml_heading_candidates defaultExtractConfig [0] [fragH1] = [fragH1]) ∧
    (¬ [fragB1, fragB2, fragB3, fragH1, fragH2].length < 5 ∧
      min defaultExtractConfig.max_clusters
        ([fragB1, fragB2, fragB3, fragH1, fragH2].length /
          defaultExtractConfig.clusterDivisor) < defaultExtractConfig.min_clusters ∧
      get_ml_heading_candidates defaultExtractConfig [0, 0, 0, 1, 1]
        [fragB1, fragB2, fragB3, fragH1, fragH2] =
        [fragB1, fragB2, fragB3, fragH1, fragH2]) ∧
    get_ml_heading_candidates defaultExtractConfig [0, 0, 0, 1, 1, 1]
      [fragB1, fragB2, fragB3, fragH1, fragH2, fragH3] =
      [fragH1, fragH2, fragH3] := by
  have hsB : calculate_cluster_score defaultExtractConfig [fragB1, fragB2, fragB3] = 2 := by
    simp +decide only [calculate_cluster_score, cluster_section_keywords,
      defaultExtractConfig, fragB1, fragB2, fragB3, List.map_cons, List.map_nil,
      List.sum_cons, List.sum_nil, List.countP_cons, List.countP_nil,
      List.length_cons, List.length_nil, List.any_cons, List.any_nil]
    norm_num
  have hsH : calculate_cluster_score defaultExtractConfig [fragH1, fragH2, fragH3] = 20 := by
    simp +decide only [calculate_cluster_score, cluster_section_keywords,
      defaultExtractConfig, fragH1, fragH2, fragH3, List.map_cons, List.map_nil,
      List.sum_cons, List.sum_nil, List.countP_cons, List.countP_nil,
      List.length_cons, List.length_nil, List.any_cons, List.any_nil]
    norm_num
  refine ⟨⟨by decide, ?_⟩, ⟨by decide, by decide, ?_⟩, ?_⟩
  · exact (C5_clustering_total_fallback defaultExtractConfig [0] [fragH1]).1 (by decide)
  · exact (C5_clustering_total_fallback defaultExtractConfig [0, 0, 0, 1, 1]
      [fragB1, fragB2, fragB3, fragH1, fragH2]).2.1 (by decide) (by decide)
  · have h := (C5_clustering_total_fallback defaultExtractConfig [0, 0, 0, 1, 1, 1]
      [fragB1, fragB2, fragB3, fragH1, fragH2, fragH3]).2.2 (by decide) (by decide)
    rw [h]
    have hmem0 : membersOf
        (List.zip [0, 0, 0, 1, 1, 1] [fragB1, fragB2, fragB3, fragH1, fragH2, fragH3]) 0 =
        [fragB1, fragB2, fragB3] := by
      simp [membersOf, List.zip]
    have hmem1 : membersOf
        (List.zip [0, 0, 0, 1, 1, 1] [fragB1, fragB2, fragB3, fragH1, fragH2, fragH3]) 1 =
        [fragH1, fragH2, fragH3] := by
      simp [membersOf, List.zip]
    have hocc : firstOccs
        ((List.zip [0, 0, 0, 1, 1, 1] [fragB1, fragB2, fragB3, fragH1, fragH2, fragH3]).map
          (·.1)) = [0, 1] := by
      simp [firstOccs, List.zip]
    rw [hocc]
    simp only [List.flatMap_cons, List.flatMap_nil, hmem0, hmem1, hsB, hsH]
    norm_num

/-! ### Heading filter (`extractors/filters/heading_filter.py`) -/

/-- The configuration slice used by `HeadingFilter`.  The
`filtering.noise_patterns` regexes come from configuration data, so their
compiled match tests are carried as boolean functions; `maxSpaceFrac`
models the `max_space_ratio` option. -/
structure FilterConfig where
  noisePatterns : List (List Char → Bool)
  min_unique_chars : ℕ
  maxSpaceFrac : ℚ
  min_word_avg_length : ℚ
  min_text_length : ℕ
  max_form_heading : ℕ
  max_academic_heading : ℕ
  max_technical_heading : ℕ
  max_simple_heading : ℕ
  max_dots : ℕ
  max_parentheses : ℕ
  max_underscores : ℕ
  max_caps_length : ℕ
  form_avoid_fields : List (List Char)
  simple_avoid_patterns : List (List Char)

/-- `doc_profile['structure']` as consumed by the filter. -/
structure DocStructure where
  is_form : Bool
  is_academic : Bool
  is_technical : Bool

/-- `HeadingFilter._is_noise_text`. -/
def is_noise_text (cfg : FilterConfig) (text : List Char) : Bool :=
  let text_clean := pyStrip text
  cfg.noisePatterns.any (fun p => p text_clean) ||
  (text_clean.length < cfg.min_unique_chars) ||
  (((countChar text_clean ' ' : ℚ) / (max 1 text_clean.length : ℚ)) > cfg.maxSpaceFrac) ||
  (text_clean.dedup.length < cfg.min_unique_chars)

def sentence_starters : List (List Char) :=
  ["those".toList, "these".toList, "this".toList, "that".toList, "when".toList,
   "where".toList, "while".toList, "during".toList, "after".toList, "before".toList,
   "since".toList, "until".toList, "although".toList, "however".toList,
   "therefore".toList, "moreover".toList, "furthermore".toList, "in addition".toList,
   "for example".toList, "such as".toList]

/-- Python `hay.count(needle)`: non-overlapping substring count. -/
def countSub (needle : List Char) (hay : List Char) : ℕ :=
  if hn : needle.isEmpty then 0
  else match hay with
  | [] => 0
  | c :: cs =>
    if needle.isPrefixOf (c :: cs) then 1 + countSub needle ((c :: cs).drop needle.length)
    else countSub needle cs
  termination_by hay.length
  decreasing_by
    · simp only [List.length_drop, List.length_cons]
      have : 1 ≤ needle.length := by
        cases needle with
        | nil => simp at hn
        | cons _ _ => simp
      omega
    · simp

/-- `\w` (ASCII model). -/
def wordC (c : Char) : Bool := isAlnum c || c == '_'

/-- A word-boundary check after `n` consumed characters. -/
def boundaryAfter (s : List Char) (n : ℕ) : Bool :=
  match (s.drop n).head? with
  | none => true
  | some c => !wordC c

/-- Match lengths at the start of `s` for the alternatives of
`\b(version|v\d+|\d{4}|\d+/\d+|\d+-\d+)\b` (maximal munch per alternative;
exact here because each repetition is followed by a disjoint class, and
`\d{4}` must be followed by a boundary, i.e. exactly four digits). -/
def versionAltLens (s : List Char) : List ℕ :=
  (if "version".toList.isPrefixOf s then [7] else []) ++
  (match s with
   | 'v' :: rest =>
     let ds := rest.takeWhile isDig
     if ds.isEmpty then [] else [1 + ds.length]
   | _ => []) ++
  (let ds := s.takeWhile isDig
   (if ds.length = 4 then [4] else []) ++
   (if ds.isEmpty then []
    else match (s.drop ds.length) with
    | '/' :: rest2 =>
      let ds2 := rest2.takeWhile isDig
      if ds2.isEmpty then [] else [ds.length + 1 + ds2.length]
    | '-' :: rest2 =>
      let ds2 := rest2.takeWhile isDig
      if ds2.isEmpty then [] else [ds.length + 1 + ds2.length]
    | _ => []))

/-- `re.search(r'\b(version|v\d+|\d{4}|\d+/\d+|\d+-\d+)\b', text_lower)`. -/
def version_date_test (tl : List Char) : Bool :=
  let rec go : List Char → Bool → Bool
    | [], _ => false
    | c :: cs, prevWord =>
      ((!prevWord) && (versionAltLens (c :: cs)).any (fun n => boundaryAfter (c :: cs) n)) ||
      go cs (wordC c)
  go tl false

/-- `re.search(r'\bpage\s+\d+|\bp\.\s*\d+|\bpp\.\s*\d+', text_lower)`. -/
def page_ref_test (tl : List Char) : Bool :=
  let matchHere : List Char → Bool := fun s =>
    (((lit 'p' s >>= lit 'a' >>= lit 'g' >>= lit 'e') >>= munch1 isWs >>= one isDig).isSome) ||
    ((lit 'p' s >>= lit '.' >>= (fun r => some (r.dropWhile isWs)) >>= one isDig).isSome) ||
    ((lit 'p' s >>= lit 'p' >>= lit '.' >>= (fun r => some (r.dropWhile isWs)) >>= one isDig).isSome)
  let rec go : List Char → Bool → Bool
    | [], _ => false
    | c :: cs, prevWord =>
      ((!prevWord) && matchHere (c :: cs)) || go cs (wordC c)
  go tl false

/-- `HeadingFilter._is_unlikely_heading`. -/
def is_unlikely_heading (text : List Char) : Bool :=
  let text_clean := pyStrip text
  let text_lower := lowerStr text_clean
  sentence_starters.any (fun st => st.isPrefixOf text_lower) ||
  (text_clean.length > 120 && text_clean.contains '.') ||
  version_date_test text_lower ||
  page_ref_test text_lower ||
  (countSub " be ".toList text_lower > 1 ||
   countSub " shall ".toList text_lower > 0 ||
   countSub " must ".toList text_lower > 0 ||
   countSub " will ".toList text_lower > 1) ||
  (countChar text_clean '.' > 1 && text_clean.length > 50)

/-- `HeadingFilter._passes_document_filters`. -/
def passes_document_filters (cfg : FilterConfig) (profile : DocStructure)
    (text text_lower : List Char) : Bool :=
  if profile.is_form then
    !(text.length < cfg.min_text_length || text.length > cfg.max_form_heading ||
      text.contains ':' ||
      cfg.form_avoid_fields.any (fun f => containsSub text_lower f))
  else if profile.is_academic then
    !(text.length < cfg.min_text_length || text.length > cfg.max_academic_heading ||
      countChar text '.' > cfg.max_dots)
  else if profile.is_technical then
    !(text.length < cfg.min_text_length || text.length > cfg.max_technical_heading ||
      countChar text '(' > cfg.max_parentheses)
  else
    !(text.length < cfg.min_text_length || text.length > cfg.max_simple_heading ||
      countChar text '(' > 2 || countChar text '_' > cfg.max_underscores ||
      cfg.simple_avoid_patterns.any (fun p => containsSub text_lower p))

/-- `HeadingFilter._has_good_heading_structure`.  (The `text[0]` access is
only reached for texts of length ≥ 8; the empty case is vacuous.) -/
def has_good_heading_structure (cfg : FilterConfig) (text : List Char) : Bool :=
  match text with
  | [] => false
  | c :: _ =>
    isAlnum c &&
    !(pyIsUpper text && text.length > cfg.max_caps_length) &&
    !(match text.getLast? with
      | some lc => lc == '.' || lc == '!' || lc == '?'
      | none => false)

/-- `HeadingFilter._is_repetitive_content`: normalized word-overlap
(Jaccard) with an already kept text above 0.8. -/
def is_repetitive_content (text : List Char) (seen_texts : List (List Char)) : Bool :=
  let wa := (splitWs (lowerStr text)).dedup
  seen_texts.any (fun seen =>
    let wb := (splitWs (lowerStr seen)).dedup
    let inter := (wa.filter (fun w => wb.contains w)).length
    let uni := wa.length + (wb.filter (fun w => !wa.contains w)).length
    ((inter : ℚ) / (max 1 uni : ℚ)) > 8/10)

def modal_words : List (List Char) :=
  ["will".toList, "shall".toList, "must".toList, "should".toList, "can".toList,
   "may".toList]

def likely_heading_words : List (List Char) :=
  ["overview".toList, "introduction".toList, "summary".toList, "conclusion".toList]

def standard_section_words : List (List Char) :=
  ["overview".toList, "introduction".toList, "background".toList, "summary".toList,
   "conclusion".toList, "references".toList]

/-- `HeadingFilter._is_likely_heading_content`. -/
def is_likely_heading_content (text : List Char) : Bool :=
  let text_lower := lowerStr text
  ((munch1 isDig text_lower >>= (fun r => some ((lit '.' r).getD r)) >>=
      munch1 isWs >>= one isLow).isSome) ||
  ((munch1 isLow text_lower >>= munch1 isWs).elim false
      (fun r => likely_heading_words.any (fun w => w.isPrefixOf r))) ||
  (standard_section_words.any (fun w => w.isPrefixOf text_lower)) ||
  ((litSeq "chapter".toList text_lower >>= munch1 isWs >>= one isDig).isSome) ||
  ((litSeq "section".toList text_lower >>= munch1 isWs >>= one isDig).isSome) ||
  ((litSeq "appendix".toList text_lower >>= munch1 isWs >>= one isLow).isSome) ||
  (((splitWs text).length ≤ 6 && text.length ≤ 80) &&
    !(modal_words.any (fun w => containsSub text_lower w)))

/-- The whole per-candidate keep decision of
`HeadingFilter.filter_candidates` (each `continue` is a failed
conjunct). -/
def keepCandidate (cfg : FilterConfig) (profile : DocStructure) (text : List Char)
    (seen_texts : List (List Char)) : Bool :=
  !(seen_texts.contains text) &&
  !(is_noise_text cfg text) &&
  !(is_unlikely_heading text) &&
  !(text.length < 8) &&
  !(let words := splitWs text
    words.length > 1 &&
      (((words.map (·.length)).sum : ℚ) / (words.length : ℚ) < cfg.min_word_avg_length)) &&
  passes_document_filters cfg profile text (lowerStr text) &&
  (has_good_heading_structure cfg text &&
   !(is_repetitive_content text seen_texts) &&
   is_likely_heading_content text)

/-- The filtering loop: `seen_texts` collects the stripped texts of kept
candidates. -/
def filterAux (cfg : FilterConfig) (profile : DocStructure) :
    List Frag → List (List Char) → List Frag
  | [], _ => []
  | c :: cs, seen =>
    let t := pyStrip c.text
    if keepCandidate cfg profile t seen then c :: filterAux cfg profile cs (t :: seen)
    else filterAux cfg profile cs seen

/-- `HeadingFilter.filter_candidates`. -/
def filter_candidates (cfg : FilterConfig) (profile : DocStructure)
    (candidates : List Frag) : List Frag :=
  filterAux cfg profile candidates []

theorem filterAux_idem (cfg : FilterConfig) (profile : DocStructure)
    (cs : List Frag) :
    ∀ seen, filterAux cfg profile (filterAux cfg profile cs seen) seen =
      filterAux cfg profile cs seen := by
  induction cs with
  | nil => intro seen; simp [filterAux]
  | cons c cs ih =>
    intro seen
    simp only [filterAux]
    by_cases hk : keepCandidate cfg profile (pyStrip c.text) seen
    · rw [if_pos hk]
      simp only [filterAux]
      rw [if_pos hk, ih (pyStrip c.text :: seen)]
    · rw [if_neg hk]
      exact ih seen

/-- C3: `HeadingFilter.filter_candidates` is idempotent.  When the kept
candidates are re-filtered, the `seen_texts` state grows through exactly
the same values as on the first pass, so every previously kept candidate
passes every check again. -/
theorem C3_filter_idempotent (cfg : FilterConfig) (profile : DocStructure)
    (candidates : List Frag) :
    filter_candidates cfg profile (filter_candidates cfg profile candidates) =
      filter_candidates cfg profile candidates := by
  unfold filter_candidates
  exact filterAux_idem cfg profile candidates []

/-! ### Accuracy enhancer (`accuracy/accuracy_enhancer.py`)

The enhancer receives the structured headings `{level, text, page}` built
by `build_hierarchy`; the `size`, `bold`, `language` and `quality_boost`
keys are optional and read through `dict.get` defaults.
`unicodedata.normalize('NFC', ...)` is an external collaborator and is
carried as a function parameter `nfc`. -/

structure HCand where
  level : String
  text : List Char
  page : ℤ
  sizeOpt : Option ℚ
  boldOpt : Option Bool
  langOpt : Option String
  boostOpt : Option ℚ
deriving DecidableEq

/-- `candidate.get('size', 12.0)`. -/
def getSize (c : HCand) : ℚ := c.sizeOpt.getD 12

/-- `candidate.get('bold', False)`. -/
def getBold (c : HCand) : Bool := c.boldOpt.getD false

/-- `candidate.get('quality_boost', 0)`. -/
def getBoost (c : HCand) : ℚ := c.boostOpt.getD 0

/-- Unanchored `re.search` of a start-anchored matcher. -/
def searchP (m : List Char → Bool) (s : List Char) : Bool := s.tails.any m

/-- `\s*`. -/
def munch0 (p : Char → Bool) (s : List Char) : Option (List Char) :=
  some (s.dropWhile p)

/-- `AccuracyEnhancer._detect_text_language`: Unicode range tests, in
source order. -/
def detect_text_language (text : List Char) : String :=
  if text.any (fun c =>
      (0x3040 ≤ c.toNat && c.toNat ≤ 0x309F) ||
      (0x30A0 ≤ c.toNat && c.toNat ≤ 0x30FF) ||
      (0x4E00 ≤ c.toNat && c.toNat ≤ 0x9FAF)) then "japanese"
  else if text.any (fun c => 0x4E00 ≤ c.toNat && c.toNat ≤ 0x9FFF) then "chinese"
  else if text.any (fun c => 0xAC00 ≤ c.toNat && c.toNat ≤ 0xD7AF) then "korean"
  else if text.any (fun c => 0x0600 ≤ c.toNat && c.toNat ≤ 0x06FF) then "arabic"
  else if (lowerStr text).any (fun c =>
      ['à','á','â','ã','ä','å','æ','ç','è','é','ê','ë','ì','í','î','ï','ñ',
       'ò','ó','ô','õ','ö','ø','ù','ú','û','ü','ý','ÿ'].contains c) then "european"
  else "english"

/-- `section_keywords` of `_init_multilingual_patterns`. -/
def language_section_keywords : String → List (List Char)
  | "japanese" => ["章".toList, "節".toList, "項".toList, "概要".toList, "背景".toList,
                   "結論".toList, "参考文献".toList, "付録".toList]
  | "chinese" => ["章".toList, "节".toList, "概述".toList, "背景".toList, "结论".toList,
                  "参考文献".toList, "附录".toList]
  | "korean" => ["장".toList, "절".toList, "개요".toList, "배경".toList, "결론".toList,
                 "참고문헌".toList, "부록".toList]
  | "arabic" => ["فصل".toList, "باب".toList, "خلاصة".toList, "مقدمة".toList,
                 "خاتمة".toList, "مراجع".toList]
  | "european" => ["introducción".toList, "conclusión".toList, "résumé".toList,
                   "einführung".toList, "zusammenfassung".toList]
  | _ => []

/-- Matcher for `WORD\d+WORD`-shaped numbering patterns such as `第\d+章`. -/
def m_wrap_num (pre post : List Char) (s : List Char) : Bool :=
  (litSeq pre s >>= munch1 isDig >>= litSeq post).isSome

/-- Matcher for `\d+\.\d+`. -/
def m_num_dot_num (s : List Char) : Bool :=
  (munch1 isDig s >>= lit '.' >>= one isDig).isSome

/-- Matcher for `WORD\s+\d+`. -/
def m_word_ws_num (w : List Char) (s : List Char) : Bool :=
  (litSeq w s >>= munch1 isWs >>= one isDig).isSome

/-- `numbering_patterns` of `_init_multilingual_patterns`, as one `re.search`
test per language. -/
def language_numbering_test : String → List Char → Bool
  | "japanese", t =>
    searchP (m_wrap_num "第".toList "章".toList) t ||
    searchP (m_wrap_num "第".toList "節".toList) t ||
    searchP m_num_dot_num t ||
    searchP (fun s => ((munch1 (fun c =>
      ["一","二","三","四","五","六","七","八","九","十"].any
        (fun z => z.toList.contains c)) s) >>= litSeq "章".toList).isSome) t
  | "chinese", t =>
    searchP (m_wrap_num "第".toList "章".toList) t ||
    searchP (m_wrap_num "第".toList "节".toList) t ||
    searchP m_num_dot_num t
  | "korean", t =>
    searchP (m_wrap_num "제".toList "장".toList) t ||
    searchP (m_wrap_num "제".toList "절".toList) t ||
    searchP m_num_dot_num t
  | "arabic", t =>
    searchP m_num_dot_num t ||
    searchP (m_word_ws_num "الفصل".toList) t
  | "european", t =>
    searchP m_num_dot_num t ||
    searchP (m_word_ws_num "capítulo".toList) t ||
    searchP (m_word_ws_num "chapitre".toList) t ||
    searchP (m_word_ws_num "kapitel".toList) t
  | _, _ => false

def supported_languages : List String :=
  ["japanese", "chinese", "korean", "arabic", "european"]

/-- `AccuracyEnhancer._enhance_with_language_patterns`: sets `language` and
`quality_boost` (+0.2 for a section keyword, +0.3 for a numbering
pattern). -/
def enhance_with_language_patterns (c : HCand) (language : String) : HCand :=
  let has_section_keyword :=
    (language_section_keywords language).any (fun k => containsSub c.text k)
  let has_numbering := language_numbering_test language c.text
  let quality_boost : ℚ :=
    (if has_section_keyword then 2/10 else 0) + (if has_numbering then 3/10 else 0)
  { c with langOpt := some language, boostOpt := some quality_boost }

/-- `AccuracyEnhancer._normalize_unicode_text`: NFC (external, a
parameter) then whitespace collapse. -/
def normalize_unicode_text (nfc : List Char → List Char) (t : List Char) : List Char :=
  normWs (nfc t)

/-- `AccuracyEnhancer._apply_multilingual_enhancement`. -/
def apply_multilingual_enhancement (nfc : List Char → List Char)
    (candidates : List HCand) : List HCand :=
  candidates.map (fun c =>
    let language := detect_text_language c.text
    let c' := if supported_languages.contains language
              then enhance_with_language_patterns c language else c
    { c' with text := normalize_unicode_text nfc c.text })

/-- `AccuracyEnhancer._meets_minimum_quality`. -/
def meets_minimum_quality (text : List Char) : Bool :=
  !(text.length < 3 || text.length > 200) &&
  !((lowerStr text).dedup.length < 3) &&
  !((splitWs text).length = 0) &&
  !((munch1 (fun c => isDig c || isWs c || c == '-' || c == '_' || c == '.') text).elim
      false (fun r => r.isEmpty))

/-- `AccuracyEnhancer._validates_in_context` (the hierarchy-consistency
check always returns `True`). -/
def validates_in_context (c : HCand) (all_candidates : List HCand) : Bool :=
  let same_page := all_candidates.filter (fun x => x.page == c.page)
  if same_page.length > 10 then
    let avg_size := (same_page.map getSize).sum / (same_page.length : ℚ)
    !(getSize c < avg_size * (8/10))
  else true

/-- `AccuracyEnhancer._has_consistent_typography`. -/
def has_consistent_typography (c : HCand) (all_candidates : List HCand) : Bool :=
  let similar := all_candidates.filter (fun x => |getSize x - getSize c| < 1)
  if similar.length < 2 then true
  else
    let boldFrac := ((similar.countP getBold : ℚ)) / (similar.length : ℚ)
    if getBold c && decide (boldFrac < 3/10) then false
    else if !getBold c && decide (boldFrac > 7/10) then false
    else true

/-- `AccuracyEnhancer._validates_semantically` (permissive: rejects only
the listed non-heading patterns; the heading-indicator bonus is computed
but unused in the source). -/
def validates_semantically (text : List Char) : Bool :=
  let tl := lowerStr text
  !(searchP (m_word_ws_num "page".toList) tl ||
    searchP (m_word_ws_num "figure".toList) tl ||
    searchP (m_word_ws_num "table".toList) tl ||
    searchP (fun s => (litSeq "see".toList s >>= munch1 isWs >>=
      litSeq "page".toList).isSome) tl ||
    searchP (fun s => (litSeq "continued".toList s >>= munch1 isWs >>=
      litSeq "on".toList).isSome) tl ||
    searchP (fun s => (litSeq "end".toList s >>= munch1 isWs >>=
      litSeq "of".toList).isSome) tl ||
    searchP (fun s => (litSeq "total".toList s >>= munch0 isWs >>= lit ':').isSome) tl ||
    searchP (fun s => (litSeq "sum".toList s >>= munch0 isWs >>= lit ':').isSome) tl ||
    searchP (fun s => (litSeq "amount".toList s >>= munch0 isWs >>= lit ':').isSome) tl)

/-- `AccuracyEnhancer._apply_precision_filters`. -/
def apply_precision_filters (candidates : List HCand) : List HCand :=
  candidates.filter (fun c =>
    let text := pyStrip c.text
    meets_minimum_quality text && validates_in_context c candidates &&
      has_consistent_typography c candidates && validates_semantically text)

/-- The three recall-recovery strategies are placeholders returning `[]`. -/
def find_relaxed_typography_headings : List HCand := []

def recover_structural_patterns : List HCand := []

def reconstruct_cross_page_headings : List HCand := []

/-- `AccuracyEnhancer._deduplicate_candidates`: keep the first candidate
for each lowercased stripped text. -/
def deduplicate_candidates_aux : List HCand → List (List Char) → List HCand
  | [], _ => []
  | c :: cs, seen =>
    let key := lowerStr (pyStrip c.text)
    if seen.contains key then deduplicate_candidates_aux cs seen
    else c :: deduplicate_candidates_aux cs (key :: seen)

def deduplicate_candidates (candidates : List HCand) : List HCand :=
  deduplicate_candidates_aux candidates []

/-- `AccuracyEnhancer._apply_recall_enhancement`. -/
def apply_recall_enhancement (candidates : List HCand) : List HCand :=
  deduplicate_candidates
    (candidates ++ find_relaxed_typography_headings ++ recover_structural_patterns ++
      reconstruct_cross_page_headings)

/-- `AccuracyEnhancer._score_structural_patterns`. -/
def score_structural_patterns (c : HCand) : ℚ :=
  let text := c.text
  let tl := lowerStr text
  let base : ℚ :=
    if (munch1 isDig text >>= lit '.' >>= munch1 isWs).isSome then 9/10
    else if (munch1 isDig text >>= lit '.' >>= munch1 isDig >>= munch1 isWs).isSome
      then 8/10
    else if (one isUp text >>= lit '.' >>= munch1 isWs).isSome then 7/10
    else 0
  let has_section :=
    (["introduction".toList, "conclusion".toList, "summary".toList, "overview".toList,
      "background".toList, "methodology".toList, "results".toList, "discussion".toList,
      "references".toList, "appendix".toList].any (fun k => containsSub tl k)) ||
    searchP (m_word_ws_num "chapter".toList) tl ||
    searchP (m_word_ws_num "section".toList) tl
  min 1 (base + (if has_section then 6/10 else 0))

/-- `AccuracyEnhancer._score_semantic_content`. -/
def score_semantic_content (c : HCand) : ℚ :=
  let text := c.text
  let length := text.length
  let s1 : ℚ := if 10 ≤ length ∧ length ≤ 60 then 8/10
    else if 5 ≤ length ∧ length ≤ 100 then 6/10 else 3/10
  let word_count := (splitWs text).length
  let s2 : ℚ := if 2 ≤ word_count ∧ word_count ≤ 8 then 7/10
    else if 1 ≤ word_count ∧ word_count ≤ 12 then 5/10 else 0
  let s3 : ℚ := if pyIsTitle text then 5/10
    else if pyIsUpper text && decide (length < 50) then 4/10 else 0
  min 1 (s1 + s2 + s3)

/-- `AccuracyEnhancer._score_typography`. -/
def score_typography (c : HCand) (all_candidates : List HCand) : ℚ :=
  let size := getSize c
  let bold := getBold c
  match all_candidates.map getSize with
  | [] =>
    if bold then min 1 (6/10 + (if size > 12 then 3/10 else 1/10)) else 1/2
  | s :: rest =>
    let max_size := rest.foldl max s
    let sizeFrac := if max_size > 0 then size / max_size else 1/2
    if sizeFrac > 9/10 then 9/10
    else if sizeFrac > 7/10 then 7/10
    else if sizeFrac > 1/2 then 1/2
    else 3/10

/-- `AccuracyEnhancer._score_position`. -/
def score_position (c : HCand) : ℚ :=
  if c.page ≤ 2 then 9/10
  else if c.page ≤ 5 then 7/10
  else if c.page ≤ 10 then 6/10
  else 1/2

def heading_quality_weights : List (String × ℚ) :=
  [("structural_pattern", 35/100), ("content_semantic", 25/100),
   ("typography", 20/100), ("position", 15/100), ("multilingual", 5/100)]

/-- `AccuracyEnhancer._calculate_quality_score`.  The weight loop looks up
`component.split('_')[0]` in the component-score mapping; for
`'content_semantic'` this is `'content'`, which is not a key of the
mapping (the semantic score is stored under `'semantic'`), so `.get`
returns 0 and the semantic component never contributes. -/
def calculate_quality_score (c : HCand) (all_candidates : List HCand) : ℚ :=
  let scores : List (String × ℚ) :=
    [("structural", score_structural_patterns c),
     ("semantic", score_semantic_content c),
     ("typography", score_typography c all_candidates),
     ("position", score_position c),
     ("multilingual", getBoost c)]
  let total := heading_quality_weights.foldl
    (fun acc kw =>
      if kw.1 = "multilingual" then acc + kw.2 * ((scores.lookup "multilingual").getD 0)
      else acc + kw.2 * ((scores.lookup (String.mk (kw.1.toList.takeWhile
        (fun ch => !(ch == '_'))))).getD 0))
    0
  min 1 total

/-- `AccuracyEnhancer._calculate_dynamic_threshold_from_scores`. -/
def calculate_dynamic_threshold_from_scores (scores : List ℚ) : ℚ :=
  if scores.isEmpty then 1/2
  else
    let sorted_scores := sortStable (fun a b => decide (a ≤ b)) scores
    let median_score := sorted_scores.getD (sorted_scores.length / 2) 0
    max (3/10) (min (8/10) (median_score * (8/10)))

/-- Python's `round(x, 3)` (round half to even) on exact rationals. -/
def roundHE (y : ℚ) : ℤ :=
  let n := ⌊y⌋
  let f := y - (n : ℚ)
  if f < 1/2 then n else if (1 : ℚ)/2 < f then n + 1 else if Even n then n else n + 1

def round3 (x : ℚ) : ℚ := ((roundHE (x * 1000) : ℚ)) / 1000

structure Metrics where
  precision_score : ℚ
  recall_score : ℚ
  f1_score : ℚ
  total_candidates : ℕ
  selected_count : ℕ
deriving DecidableEq

/-- `AccuracyEnhancer._calculate_accuracy_metrics`. -/
def calculate_accuracy_metrics (selected all_candidates : List HCand) : Metrics :=
  let total_candidates := all_candidates.length
  let selected_count := selected.length
  let precision : ℚ :=
    if selected_count > 0 then
      min 1 ((8/10) + (2/10) * (1 - (selected_count : ℚ) / ((max 1 total_candidates : ℕ) : ℚ)))
    else 0
  let recallQ : ℚ :=
    min 1 ((selected_count : ℚ) / (max 1 ((total_candidates : ℚ) * (7/10))))
  let f1 : ℚ :=
    if precision + recallQ > 0 then 2 * (precision * recallQ) / (precision + recallQ)
    else 0
  ⟨round3 precision, round3 recallQ, round3 f1, total_candidates, selected_count⟩

/-- The sort/threshold/selection core of
`AccuracyEnhancer._apply_quality_scoring` (source lines 150-155), acting
on the zipped candidate/score pairs. -/
def select_by_threshold (pairs : List (HCand × ℚ)) : List HCand :=
  let sorted_pairs := sortStable (fun a b => decide (b.2 ≤ a.2)) pairs
  let threshold := calculate_dynamic_threshold_from_scores (pairs.map (·.2))
  (sorted_pairs.filter (fun p => decide (threshold ≤ p.2))).map (·.1)

/-- `AccuracyEnhancer._apply_quality_scoring`. -/
def apply_quality_scoring (candidates : List HCand) : List HCand × Metrics :=
  let pairs := candidates.map (fun c => (c, calculate_quality_score c candidates))
  let final_candidates := select_by_threshold pairs
  (final_candidates, calculate_accuracy_metrics final_candidates candidates)

/-- `AccuracyEnhancer.enhance_heading_detection` (the `doc_profile`
argument is threaded through in the source but not read by any of the
embedded passes). -/
def enhance_heading_detection (nfc : List Char → List Char)
    (candidates : List HCand) : List HCand × Metrics :=
  let high_precision := apply_precision_filters candidates
  let enhanced := apply_recall_enhancement high_precision
  let multilingual := apply_multilingual_enhancement nfc enhanced
  apply_quality_scoring multilingual

/-! ### Claim C2: dynamic threshold and selection -/

/-- `clamp(lo, hi, x)` as the spec writes `max(lo, min(hi, x))`. -/
def clamp (lo hi x : ℚ) : ℚ := max lo (min hi x)

/-- The median taken by the source: middle element (upper middle for even
length) of the ascending sort. -/
def medianOf (scores : List ℚ) : ℚ :=
  let s := sortStable (fun a b => decide (a ≤ b)) scores
  s.getD (s.length / 2) 0

def candLow : HCand := ⟨"H1", "low".toList, 0, none, none, none, none⟩

def candMid : HCand := ⟨"H1", "mid".toList, 0, none, none, none, none⟩

def candTop : HCand := ⟨"H1", "top".toList, 0, none, none, none, none⟩

/-- C2: the dynamic quality threshold is `clamp(0.3, 0.8, median*0.8)`
(0.5 for an empty score list), and `_apply_quality_scoring` keeps exactly
the candidates whose quality score reaches the threshold; for scores
`[0.2, 0.5, 0.9]` the threshold is 0.4 and exactly the 0.5- and
0.9-scoring candidates survive (in descending score order). -/
theorem C2_dynamic_threshold_selection (cands : List HCand) (c : HCand)
    (scores : List ℚ) :
    calculate_dynamic_threshold_from_scores [] = 1/2 ∧
    (scores ≠ [] → calculate_dynamic_threshold_from_scores scores =
      clamp (3/10) (8/10) (medianOf scores * (8/10))) ∧
    (c ∈ (apply_quality_scoring cands).1 ↔
      c ∈ cands ∧
        calculate_dynamic_threshold_from_scores
            (cands.map (fun x => calculate_quality_score x cands)) ≤
          calculate_quality_score c cands) ∧
    calculate_dynamic_threshold_from_scores [2/10, 5/10, 9/10] = 4/10 ∧
    select_by_threshold [(candLow, 2/10), (candMid, 5/10), (candTop, 9/10)] =
      [candTop, candMid] := by
  refine ⟨by norm_num [calculate_dynamic_threshold_from_scores], ?_, ?_, ?_, ?_⟩
  · intro h
    simp only [calculate_dynamic_threshold_from_scores, medianOf, clamp,
      List.isEmpty_iff, if_neg h]
  · constructor
    · intro hc
      simp only [apply_quality_scoring, select_by_threshold, List.mem_map,
        List.mem_filter, decide_eq_true_eq] at hc
      obtain ⟨p, ⟨hps, hpt⟩, hpc⟩ := hc
      have hp : p ∈ cands.map (fun x => (x, calculate_quality_score x cands)) :=
        (sortStable_perm _ _).mem_iff.mp hps
      obtain ⟨x, hx, hxp⟩ := List.mem_map.mp hp
      have hx1 : x = c := by rw [← hpc, ← hxp]
      subst hx1
      refine ⟨hx, ?_⟩
      have hsnd : p.2 = calculate_quality_score x cands := by rw [← hxp]
      rw [hsnd] at hpt
      have hmm : (cands.map (fun x => (x, calculate_quality_score x cands))).map (·.2) =
          cands.map (fun x => calculate_quality_score x cands) := by
        rw [List.map_map]
        rfl
      rw [hmm] at hpt
      exact hpt
    · rintro ⟨hc, ht⟩
      simp only [apply_quality_scoring, select_by_threshold, List.mem_map,
        List.mem_filter, decide_eq_true_eq]
      refine ⟨(c, calculate_quality_score c cands), ⟨?_, ?_⟩, rfl⟩
      · exact (sortStable_perm _ _).mem_iff.mpr
          (List.mem_map.mpr ⟨c, hc, rfl⟩)
      · have hmm : (cands.map (fun x => (x, calculate_quality_score x cands))).map (·.2) =
            cands.map (fun x => calculate_quality_score x cands) := by
          rw [List.map_map]
          rfl
        rw [hmm]
        exact ht
  · norm_num [calculate_dynamic_threshold_from_scores, sortStable, insertStable]
  · norm_num [select_by_threshold, calculate_dynamic_threshold_from_scores,
      sortStable, insertStable]

/-- Witness for C2: the clamp formula applied to the concrete score list
`[0.2, 0.5, 0.9]`. -/
theorem C2_dynamic_threshold_selection_witness :
    ([(2 : ℚ)/10, 5/10, 9/10] ≠ [] ∧
      calculate_dynamic_threshold_from_scores [2/10, 5/10, 9/10] =
        clamp (3/10) (8/10) (medianOf [2/10, 5/10, 9/10] * (8/10))) ∧
    medianOf [2/10, 5/10, 9/10] = 5/10 :=
  ⟨⟨by simp,
    (C2_dynamic_threshold_selection [] candLow [2/10, 5/10, 9/10]).2.1 (by simp)⟩,
   by norm_num [medianOf, sortStable, insertStable]⟩

/-! ### Claim C6: the quality score is bounded in [0, 1] -/

theorem score_structural_patterns_bounds (c : HCand) :
    0 ≤ score_structural_patterns c ∧ score_structural_patterns c ≤ 1 := by
  unfold score_structural_patterns
  refine ⟨le_min (by norm_num) ?_, min_le_left _ _⟩
  split_ifs <;> norm_num

theorem score_semantic_content_bounds (c : HCand) :
    0 ≤ score_semantic_content c ∧ score_semantic_content c ≤ 1 := by
  unfold score_semantic_content
  refine ⟨le_min (by norm_num) ?_, min_le_left _ _⟩
  split_ifs <;> norm_num

set_option maxHeartbeats 1000000 in
theorem score_typography_bounds (c : HCand) (all_candidates : List HCand) :
    0 ≤ score_typography c all_candidates ∧ score_typography c all_candidates ≤ 1 := by
  unfold score_typography
  split
  · by_cases hb : getBold c
    · rw [if_pos hb]
      constructor
      · refine le_min (by norm_num) ?_
        split_ifs <;> norm_num
      · exact min_le_left _ _
    · rw [if_neg hb]
      norm_num
  · dsimp only
    constructor <;> split_ifs <;> norm_num

theorem score_position_bounds (c : HCand) :
    0 ≤ score_position c ∧ score_position c ≤ 1 := by
  unfold score_position
  split_ifs <;> norm_num

/-- The weighted total of `_calculate_quality_score`, after the key
lookups resolve: the `'content_semantic'` weight looks up the missing key
`'content'`, so the semantic component contributes `0.25 * 0`. -/
theorem calculate_quality_score_eq (c : HCand) (all_candidates : List HCand) :
    calculate_quality_score c all_candidates =
      min 1 (0 + 35/100 * score_structural_patterns c + 25/100 * 0 +
        20/100 * score_typography c all_candidates + 15/100 * score_position c +
        5/100 * getBoost c) := rfl

/-- C6: for every candidate and candidate set, `_calculate_quality_score`
returns a value in [0, 1], whenever the multilingual quality boost is
nonnegative (the enhancement pass only ever writes boosts in
{0, 0.2, 0.3, 0.5}, as the last conjunct shows). -/
theorem C6_quality_score_bounded (c : HCand) (all_candidates : List HCand)
    (h : 0 ≤ getBoost c) :
    0 ≤ calculate_quality_score c all_candidates ∧
    calculate_quality_score c all_candidates ≤ 1 ∧
    (∀ language, 0 ≤ getBoost (enhance_with_language_patterns c language)) := by
  have hst := score_structural_patterns_bounds c
  have hty := score_typography_bounds c all_candidates
  have hpo := score_position_bounds c
  refine ⟨?_, ?_, ?_⟩
  · rw [calculate_quality_score_eq]
    refine le_min (by norm_num) ?_
    have h1 : (0 : ℚ) ≤ 35/100 * score_structural_patterns c :=
      mul_nonneg (by norm_num) hst.1
    have h2 : (0 : ℚ) ≤ 20/100 * score_typography c all_candidates :=
      mul_nonneg (by norm_num) hty.1
    have h3 : (0 : ℚ) ≤ 15/100 * score_position c :=
      mul_nonneg (by norm_num) hpo.1
    have h4 : (0 : ℚ) ≤ 5/100 * getBoost c := mul_nonneg (by norm_num) h
    linarith
  · rw [calculate_quality_score_eq]
    exact min_le_left _ _
  · intro language
    simp only [getBoost, enhance_with_language_patterns, Option.getD_some]
    split <;> split <;> norm_num

/-- Witness for C6: a concrete candidate with no boost key. -/
theorem C6_quality_score_bounded_witness :
    0 ≤ getBoost candMid ∧
      (0 ≤ calculate_quality_score candMid [candMid] ∧
       calculate_quality_score candMid [candMid] ≤ 1 ∧
       (∀ language, 0 ≤ getBoost (enhance_with_language_patterns candMid language))) :=
  ⟨by norm_num [getBoost, candMid],
   C6_quality_score_bounded candMid [candMid] (by norm_num [getBoost, candMid])⟩

/-! ### Claim C9: the precision estimate is 0 or at least 0.8 -/

theorem calculate_accuracy_metrics_precision (selected all_candidates : List HCand) :
    (calculate_accuracy_metrics selected all_candidates).precision_score =
      round3 (if selected.length > 0 then
        min 1 ((8/10) + (2/10) *
          (1 - (selected.length : ℚ) / ((max 1 all_candidates.length : ℕ) : ℚ)))
      else 0) := rfl

theorem roundHE_bounds (y : ℚ) : ⌊y⌋ ≤ roundHE y ∧ roundHE y ≤ ⌊y⌋ + 1 := by
  unfold roundHE
  dsimp only
  split_ifs <;> omega

theorem round3_zero : round3 0 = 0 := by
  norm_num [round3, roundHE]

/-- C9: whenever at least one candidate is selected the reported
`precision_score` lies in [0.8, 1.0] and equals
`round(min(1.0, 0.8 + 0.2*(1 - selected/total)), 3)`; it is 0 exactly when
no candidate is selected, so it never falls strictly between 0 and 0.8. -/
theorem C9_precision_estimate (selected all_candidates : List HCand)
    (hsub : selected.length ≤ all_candidates.length) :
    (selected.length = 0 →
      (calculate_accuracy_metrics selected all_candidates).precision_score = 0) ∧
    (1 ≤ selected.length →
      ((8 : ℚ)/10 ≤ (calculate_accuracy_metrics selected all_candidates).precision_score ∧
       (calculate_accuracy_metrics selected all_candidates).precision_score ≤ 1 ∧
       (calculate_accuracy_metrics selected all_candidates).precision_score =
         round3 (min 1 ((8/10) + (2/10) *
           (1 - (selected.length : ℚ) / (all_candidates.length : ℚ)))))) ∧
    ((calculate_accuracy_metrics selected all_candidates).precision_score ≠ 0 →
      1 ≤ selected.length) := by
  rw [calculate_accuracy_metrics_precision]
  by_cases hs : 1 ≤ selected.length
  · have ht : 1 ≤ all_candidates.length := le_trans hs hsub
    have hmax : max 1 all_candidates.length = all_candidates.length := max_eq_right ht
    rw [if_pos (by omega), hmax]
    have htq : (0 : ℚ) < (all_candidates.length : ℚ) := by
      exact_mod_cast Nat.lt_of_lt_of_le Nat.zero_lt_one ht
    have hsq : (1 : ℚ) ≤ (selected.length : ℚ) := by exact_mod_cast hs
    have hstq : (selected.length : ℚ) ≤ (all_candidates.length : ℚ) := by
      exact_mod_cast hsub
    have hfrac1 : (selected.length : ℚ) / (all_candidates.length : ℚ) ≤ 1 :=
      (div_le_one htq).mpr hstq
    have hfrac0 : 0 < (selected.length : ℚ) / (all_candidates.length : ℚ) :=
      div_pos (lt_of_lt_of_le one_pos hsq) htq
    set p : ℚ := min 1 ((8/10) + (2/10) *
      (1 - (selected.length : ℚ) / (all_candidates.length : ℚ))) with hp
    have hp_lo : (8 : ℚ)/10 ≤ p := by
      apply le_min (by norm_num)
      nlinarith
    have hp_hi : p < 1 := by
      apply lt_of_le_of_lt (min_le_right _ _)
      nlinarith
    have hfl_lo : (800 : ℤ) ≤ ⌊p * 1000⌋ := by
      apply Int.le_floor.mpr
      push_cast
      nlinarith
    have hfl_hi : ⌊p * 1000⌋ < 1000 := by
      apply Int.floor_lt.mpr
      push_cast
      nlinarith
    obtain ⟨hr_lo, hr_hi⟩ := roundHE_bounds (p * 1000)
    have hrd_lo : (8 : ℚ)/10 ≤ round3 p := by
      unfold round3
      rw [div_le_div_iff (by norm_num) (by norm_num)]
      have : (800 : ℚ) ≤ (roundHE (p * 1000) : ℚ) := by
        exact_mod_cast le_trans hfl_lo hr_lo
      linarith
    have hrd_hi : round3 p ≤ 1 := by
      unfold round3
      rw [div_le_iff (by norm_num)]
      have : (roundHE (p * 1000) : ℚ) ≤ 1000 := by
        exact_mod_cast le_trans hr_hi (by omega)
      linarith
    refine ⟨fun h0 => absurd h0 (by omega), fun _ => ⟨hrd_lo, hrd_hi, rfl⟩, fun _ => hs⟩
  · have hs0 : selected.length = 0 := by omega
    rw [if_neg (by omega), round3_zero]
    exact ⟨fun _ => rfl, fun h1 => absurd h1 hs, fun hne => absurd rfl hne⟩

/-- Witness for C9: one of two candidates selected gives precision 0.9. -/
theorem C9_precision_estimate_witness :
    [candMid].length ≤ [candMid, candTop].length ∧
    ((8 : ℚ)/10 ≤ (calculate_accuracy_metrics [candMid] [candMid, candTop]).precision_score ∧
     (calculate_accuracy_metrics [candMid] [candMid, candTop]).precision_score ≤ 1 ∧
     (calculate_accuracy_metrics [candMid] [candMid, candTop]).precision_score =
       round3 (min 1 ((8/10) + (2/10) *
         (1 - (([candMid].length : ℚ)) / (([candMid, candTop].length : ℚ)))))) ∧
    (calculate_accuracy_metrics [candMid] [candMid, candTop]).precision_score = 9/10 :=
  ⟨by decide,
   (C9_precision_estimate [candMid] [candMid, candTop] (by decide)).2.1 (by decide),
   by norm_num [calculate_accuracy_metrics_precision, round3, roundHE]⟩

/-! ### Claim C10: Japanese range shadows the common CJK range -/

/-- A character in one of the three ranges tested by the Japanese check. -/
def inJapaneseRanges (c : Char) : Prop :=
  (0x3040 ≤ c.toNat ∧ c.toNat ≤ 0x309F) ∨ (0x30A0 ≤ c.toNat ∧ c.toNat ≤ 0x30FF) ∨
  (0x4E00 ≤ c.toNat ∧ c.toNat ≤ 0x9FAF)

instance (c : Char) : Decidable (inJapaneseRanges c) := by
  unfold inJapaneseRanges
  infer_instance

/-- C10: any text containing a character of the hiragana, katakana or
U+4E00-9FAF ranges is classified `japanese`; `chinese` is returned exactly
for texts with no character in those ranges but some character in
U+9FB0-9FFF (the only part of the Chinese test range the Japanese test
does not already cover). -/
theorem C10_language_detection_shadowing (text : List Char) :
    ((∃ c ∈ text, inJapaneseRanges c) → detect_text_language text = "japanese") ∧
    (detect_text_language text = "chinese" ↔
      (∀ c ∈ text, ¬ inJapaneseRanges c) ∧
      (∃ c ∈ text, 0x9FB0 ≤ c.toNat ∧ c.toNat ≤ 0x9FFF)) := by
  constructor
  · intro ⟨c, hc, hr⟩
    have hany : text.any (fun c =>
        (0x3040 ≤ c.toNat && c.toNat ≤ 0x309F) ||
        (0x30A0 ≤ c.toNat && c.toNat ≤ 0x30FF) ||
        (0x4E00 ≤ c.toNat && c.toNat ≤ 0x9FAF)) = true := by
      rw [List.any_eq_true]
      refine ⟨c, hc, ?_⟩
      simp only [Bool.or_eq_true, Bool.and_eq_true, decide_eq_true_eq]
      unfold inJapaneseRanges at hr
      tauto
    simp [detect_text_language, hany]
  · constructor
    · intro hdet
      by_cases hjap : text.any (fun c =>
          (0x3040 ≤ c.toNat && c.toNat ≤ 0x309F) ||
          (0x30A0 ≤ c.toNat && c.toNat ≤ 0x30FF) ||
          (0x4E00 ≤ c.toNat && c.toNat ≤ 0x9FAF)) = true
      · rw [detect_text_language, if_pos hjap] at hdet
        exact absurd hdet (by decide)
      · constructor
        · intro c hc hr
          apply hjap
          rw [List.any_eq_true]
          refine ⟨c, hc, ?_⟩
          simp only [Bool.or_eq_true, Bool.and_eq_true, decide_eq_true_eq]
          unfold inJapaneseRanges at hr
          tauto
        · rw [detect_text_language, if_neg hjap] at hdet
          by_cases hchi : text.any (fun c => 0x4E00 ≤ c.toNat && c.toNat ≤ 0x9FFF) = true
          · rw [List.any_eq_true] at hchi
            obtain ⟨c, hc, hcr⟩ := hchi
            simp only [Bool.and_eq_true, decide_eq_true_eq] at hcr
            refine ⟨c, hc, ?_, hcr.2⟩
            rw [List.any_eq_true] at hjap
            by_contra hlt
            exact hjap ⟨c, hc, by
              simp only [Bool.or_eq_true, Bool.and_eq_true, decide_eq_true_eq]
              omega⟩
          · rw [if_neg hchi] at hdet
            exfalso
            revert hdet
            split_ifs <;> decide
    · rintro ⟨hnone, c, hc, hlo, hhi⟩
      have hjap : ¬ text.any (fun c =>
          (0x3040 ≤ c.toNat && c.toNat ≤ 0x309F) ||
          (0x30A0 ≤ c.toNat && c.toNat ≤ 0x30FF) ||
          (0x4E00 ≤ c.toNat && c.toNat ≤ 0x9FAF)) = true := by
        rw [List.any_eq_true]
        rintro ⟨d, hd, hdr⟩
        apply hnone d hd
        simp only [Bool.or_eq_true, Bool.and_eq_true, decide_eq_true_eq] at hdr
        unfold inJapaneseRanges
        tauto
      have hchi : text.any (fun c => 0x4E00 ≤ c.toNat && c.toNat ≤ 0x9FFF) = true := by
        rw [List.any_eq_true]
        refine ⟨c, hc, ?_⟩
        simp only [Bool.and_eq_true, decide_eq_true_eq]
        omega
      rw [detect_text_language, if_neg hjap, if_pos hchi]

/-- Witness for C10: `"中"` (U+4E2D) is classified Japanese, and a text of
U+9FF0 characters is the shape that still comes out Chinese. -/
theorem C10_language_detection_shadowing_witness :
    ((∃ c ∈ "中".toList, inJapaneseRanges c) ∧
      detect_text_language "中".toList = "japanese") ∧
    ((∀ c ∈ [Char.ofNat 0x9FF0], ¬ inJapaneseRanges c) ∧
      (∃ c ∈ [Char.ofNat 0x9FF0], 0x9FB0 ≤ c.toNat ∧ c.toNat ≤ 0x9FFF) ∧
      detect_text_language [Char.ofNat 0x9FF0] = "chinese") :=
  ⟨⟨by decide, (C10_language_detection_shadowing "中".toList).1 (by decide)⟩,
   ⟨by decide, by decide,
    (C10_language_detection_shadowing [Char.ofNat 0x9FF0]).2.mpr
      ⟨by decide, by decide⟩⟩⟩

/-! ### Claim C7: `extract_structure` (`pdf_extractor_modular.py`)

The whole body of `extract_structure` (opening the document, profiling,
title extraction, heading extraction, accuracy enhancement) sits inside
one `try`; `except Exception` returns `{"title": "", "outline": []}`.
The fallible stages operate on external documents (PyMuPDF), so they are
abstracted as `Except`-valued inputs over opaque `Doc`/`Profile` types. -/

structure ExtractResult where
  title : List Char
  outline : List HCand
  metricsOpt : Option Metrics
deriving DecidableEq

/-- The `try`-block of `extract_structure` (source lines 60-104): any
stage failing aborts the body with that error. -/
def extract_structure_body {Doc Profile : Type}
    (openDoc : Except String Doc)
    (analyze_document : Doc → Except String Profile)
    (extract_title : Doc → Profile → Except String (List Char))
    (extract_headings : Doc → Profile → Except String (List HCand))
    (enhance : List HCand → Profile → Except String (List HCand × Metrics)) :
    Except String ExtractResult := do
  let doc ← openDoc
  let doc_profile ← analyze_document doc
  let title ← extract_title doc doc_profile
  let raw_headings ← extract_headings doc doc_profile
  let (headings, accuracy_metrics) ← enhance raw_headings doc_profile
  pure ⟨title, headings, some accuracy_metrics⟩

/-- `extract_structure`: the `except Exception` handler yields the empty
result.  As a total Lean function this never "raises". -/
def extract_structure (body : Except String ExtractResult) : ExtractResult :=
  match body with
  | .ok result => result
  | .error _ => ⟨[], [], none⟩

/-- C7: `extract_structure` never propagates an error: a successful body
is returned as-is, any failing body (in particular a failing
`fitz.open`) produces `{title: "", outline: []}`. -/
theorem C7_extract_structure_never_raises {Doc Profile : Type}
    (openDoc : Except String Doc)
    (analyze_document : Doc → Except String Profile)
    (extract_title : Doc → Profile → Except String (List Char))
    (extract_headings : Doc → Profile → Except String (List HCand))
    (enhance : List HCand → Profile → Except String (List HCand × Metrics)) :
    (∀ r, extract_structure_body openDoc analyze_document extract_title
        extract_headings enhance = .ok r →
      extract_structure (extract_structure_body openDoc analyze_document
        extract_title extract_headings enhance) = r) ∧
    (∀ e, extract_structure_body openDoc analyze_document extract_title
        extract_headings enhance = .error e →
      extract_structure (extract_structure_body openDoc analyze_document
        extract_title extract_headings enhance) = ⟨[], [], none⟩) ∧
    (∀ e, openDoc = .error e →
      extract_structure (extract_structure_body openDoc analyze_document
        extract_title extract_headings enhance) = ⟨[], [], none⟩) := by
  refine ⟨?_, ?_, ?_⟩
  · intro r h
    rw [h]
    rfl
  · intro e h
    rw [h]
    rfl
  · intro e h
    subst h
    rfl

/-- Witness for C7: an unreadable document (`fitz.open` failing) yields
the empty result. -/
theorem C7_extract_structure_never_raises_witness :
    extract_structure (@extract_structure_body Unit Unit
      (.error "cannot open broken.pdf") (fun _ => .ok ())
      (fun _ _ => .ok []) (fun _ _ => .ok [])
      (fun hs _ => .ok (hs, calculate_accuracy_metrics hs hs))) = ⟨[], [], none⟩ :=
  (@C7_extract_structure_never_raises Unit Unit (.error "cannot open broken.pdf")
    (fun _ => .ok ()) (fun _ _ => .ok []) (fun _ _ => .ok [])
    (fun hs _ => .ok (hs, calculate_accuracy_metrics hs hs))).2.2
    "cannot open broken.pdf" rfl

/-! ### Claim C8: output ordering -/

theorem keyLe_total (a b : Frag) : keyLe a b || keyLe b a := by
  simp only [keyLe, Bool.or_eq_true, Bool.and_eq_true, decide_eq_true_eq]
  rcases lt_trichotomy a.page b.page with h | h | h <;>
    rcases le_total (keyY a) (keyY b) with hy | hy <;> tauto

theorem keyLe_trans (a b c : Frag) (h1 : keyLe a b) (h2 : keyLe b c) : keyLe a c := by
  simp only [keyLe, Bool.or_eq_true, Bool.and_eq_true, decide_eq_true_eq] at h1 h2 ⊢
  rcases h1 with h1 | ⟨h1e, h1y⟩ <;> rcases h2 with h2 | ⟨h2e, h2y⟩
  · exact Or.inl (by omega)
  · exact Or.inl (by omega)
  · exact Or.inl (by omega)
  · exact Or.inr ⟨by omega, le_trans h1y h2y⟩

theorem build_hierarchy_eq (candidates : List Frag) :
    build_hierarchy candidates = (sortStable keyLe candidates).map
      (fun c => ⟨determine_heading_level c (sortStable keyLe candidates),
                 c.text, c.page - 1⟩) := by
  cases candidates with
  | nil => rfl
  | cons c cs => rfl

/-- C8 (amended): `build_hierarchy` emits the candidates stably sorted by
`(page, y)` (pages nondecreasing in its output), but the accuracy
enhancer's final selection re-sorts by quality score: the final output of
`_apply_quality_scoring` is ordered by descending quality score, not by
document position. -/
theorem C8_amended_ordering (candidates : List Frag) (hcands : List HCand) :
    List.Pairwise (fun a b => keyLe a b = true) (sortStable keyLe candidates) ∧
    build_hierarchy candidates = (sortStable keyLe candidates).map
      (fun c => ⟨determine_heading_level c (sortStable keyLe candidates),
                 c.text, c.page - 1⟩) ∧
    List.Chain' (fun p q => p ≤ q) ((build_hierarchy candidates).map (·.page)) ∧
    List.Pairwise
      (fun a b => calculate_quality_score b hcands ≤ calculate_quality_score a hcands)
      ((apply_quality_scoring hcands).1) := by
  have hsorted := sortStable_sorted keyLe keyLe_total keyLe_trans candidates
  refine ⟨hsorted, build_hierarchy_eq candidates, ?_, ?_⟩
  · rw [build_hierarchy_eq, List.map_map]
    apply List.Pairwise.chain'
    refine List.pairwise_map.mpr ?_
    refine hsorted.imp ?_
    intro a b hab
    simp only [keyLe, Bool.or_eq_true, Bool.and_eq_true, decide_eq_true_eq] at hab
    simp only [Function.comp]
    rcases hab with h | ⟨he, _⟩ <;> omega
  · have hsp := sortStable_sorted (fun a b : HCand × ℚ => decide (b.2 ≤ a.2))
      (fun a b => by
        simp only [Bool.or_eq_true, decide_eq_true_eq]
        exact (le_total b.2 a.2).imp id id)
      (fun a b c h1 h2 => by
        simp only [decide_eq_true_eq] at h1 h2 ⊢
        exact le_trans h2 h1)
      (hcands.map (fun c => (c, calculate_quality_score c hcands)))
    simp only [apply_quality_scoring, select_by_threshold]
    refine List.pairwise_map.mpr ?_
    have hfil := hsp.filter
      (fun p => decide (calculate_dynamic_threshold_from_scores
        (((hcands.map (fun c => (c, calculate_quality_score c hcands))).map (·.2))) ≤ p.2))
    refine List.Pairwise.imp_of_mem ?_ hfil
    intro p q hp hq hpq
    have hmem : ∀ x ∈ (sortStable (fun a b : HCand × ℚ => decide (b.2 ≤ a.2))
        (hcands.map (fun c => (c, calculate_quality_score c hcands)))).filter
        (fun p => decide (calculate_dynamic_threshold_from_scores
          (((hcands.map (fun c => (c, calculate_quality_score c hcands))).map (·.2))) ≤ p.2)),
        x.2 = calculate_quality_score x.1 hcands := by
      intro x hx
      have hx1 : x ∈ sortStable (fun a b : HCand × ℚ => decide (b.2 ≤ a.2))
          (hcands.map (fun c => (c, calculate_quality_score c hcands))) :=
        List.mem_of_mem_filter hx
      have hx2 : x ∈ hcands.map (fun c => (c, calculate_quality_score c hcands)) :=
        (sortStable_perm _ _).mem_iff.mp hx1
      obtain ⟨c, _, hc⟩ := List.mem_map.mp hx2
      rw [← hc]
    have hps := hmem p hp
    have hqs := hmem q hq
    simp only [decide_eq_true_eq] at hpq
    rw [hps, hqs] at hpq
    exact hpq

/-- Counterexample data for C8: a page-0 English candidate and a page-1
Japanese candidate (as emitted by `build_hierarchy`, so page is already
0-based and `size`/`bold` are absent).  `id` instantiates the external NFC
normalisation, which is the identity on these already-composed texts. -/
def candGA : HCand := ⟨"H1", "General Remarks Today".toList, 0, none, none, none, none⟩

def candJB : HCand := ⟨"H1", "概要 まとめ".toList, 1, none, none, none, none⟩

/-- `candJB` after multilingual enhancement: language `japanese`, boost 0.2
for the section keyword `概要`. -/
def candJBe : HCand :=
  ⟨"H1", "概要 まとめ".toList, 1, none, none, some "japanese", some (2/10)⟩

theorem c8_henh : enhance_with_language_patterns candJB "japanese" = candJBe := by
  simp only [enhance_with_language_patterns,
    (by decide : (language_section_keywords "japanese").any
      (fun k => containsSub candJB.text k) = true),
    (by decide : language_numbering_test "japanese" candJB.text = false)]
  norm_num [candJB, candJBe]

theorem c8_hml : apply_multilingual_enhancement id [candGA, candJB] =
    [candGA, candJBe] := by
  simp only [apply_multilingual_enhancement, List.map_cons, List.map_nil,
    (by decide : detect_text_language candGA.text = "english"),
    (by decide : detect_text_language candJB.text = "japanese")]
  rw [if_neg (by decide), if_pos (by decide), c8_henh]
  simp only [List.cons.injEq, and_true]
  constructor
  · decide
  · show ({candJBe with text := normalize_unicode_text id candJB.text} : HCand) = candJBe
    have ht : normalize_unicode_text id candJB.text = candJBe.text := by decide
    rw [ht]

theorem c8_hpf : apply_precision_filters [candGA, candJB] = [candGA, candJB] := by
  have htA : has_consistent_typography candGA [candGA, candJB] = true := by
    norm_num [has_consistent_typography, getSize, getBold, candGA, candJB,
      List.filter_cons, List.filter_nil, List.countP_cons, List.countP_nil]
  have htB : has_consistent_typography candJB [candGA, candJB] = true := by
    norm_num [has_consistent_typography, getSize, getBold, candGA, candJB,
      List.filter_cons, List.filter_nil, List.countP_cons, List.countP_nil]
  simp only [apply_precision_filters]
  rw [List.filter_cons_of_pos, List.filter_cons_of_pos, List.filter_nil]
  · simp only [Bool.and_eq_true]
    exact ⟨⟨⟨by decide, by decide⟩, htB⟩, by decide⟩
  · simp only [Bool.and_eq_true]
    exact ⟨⟨⟨by decide, by decide⟩, htA⟩, by decide⟩

theorem c8_stA : score_structural_patterns candGA = 0 := by
  simp +decide only [score_structural_patterns, candGA]
  norm_num

theorem c8_stB : score_structural_patterns candJBe = 0 := by
  simp +decide only [score_structural_patterns, candJBe]
  norm_num

theorem c8_tyA : score_typography candGA [candGA, candJBe] = 9/10 := by
  norm_num [score_typography, getSize, getBold, candGA, candJBe]

theorem c8_tyB : score_typography candJBe [candGA, candJBe] = 9/10 := by
  norm_num [score_typography, getSize, getBold, candGA, candJBe]

theorem c8_poA : score_position candGA = 9/10 := by
  norm_num [score_position, candGA]

theorem c8_poB : score_position candJBe = 9/10 := by
  norm_num [score_position, candJBe]

theorem c8_qA : calculate_quality_score candGA [candGA, candJBe] = 315/1000 := by
  rw [calculate_quality_score_eq, c8_stA, c8_tyA, c8_poA]
  norm_num [getBoost, candGA]

theorem c8_qB : calculate_quality_score candJBe [candGA, candJBe] = 325/1000 := by
  rw [calculate_quality_score_eq, c8_stB, c8_tyB, c8_poB]
  norm_num [getBoost, candJBe]

theorem c8_hsel : select_by_threshold [(candGA, 315/1000), (candJBe, 325/1000)] =
    [candJBe, candGA] := by
  norm_num [select_by_threshold, calculate_dynamic_threshold_from_scores,
    sortStable, insertStable]

theorem c8_main : (enhance_heading_detection id [candGA, candJB]).1 =
    [candJBe, candGA] := by
  show (apply_quality_scoring (apply_multilingual_enhancement id
    (apply_recall_enhancement (apply_precision_filters [candGA, candJB])))).1 =
    [candJBe, candGA]
  rw [c8_hpf, (by decide : apply_recall_enhancement [candGA, candJB] = [candGA, candJB]),
    c8_hml]
  show select_by_threshold ([candGA, candJBe].map
    (fun c => (c, calculate_quality_score c [candGA, candJBe]))) = [candJBe, candGA]
  rw [show [candGA, candJBe].map
      (fun c => (c, calculate_quality_score c [candGA, candJBe])) =
      [(candGA, 315/1000), (candJBe, 325/1000)] by
    simp [c8_qA, c8_qB]]
  rw [c8_hsel]

/-- C8, counterexample: feeding the accuracy enhancer (the last stage of
`extract_structure`'s outline pipeline) the page-ordered headings
`[candGA (page 0), candJB (page 1)]` returns them re-sorted by quality
score as `[page 1, page 0]` — the final outline is NOT ordered by
document position. -/
theorem C8_counterexample :
    (enhance_heading_detection id [candGA, candJB]).1.map (·.page) = [1, 0] ∧
    ¬ List.Chain' (fun p q => p ≤ q)
        ((enhance_heading_detection id [candGA, candJB]).1.map (·.page)) := by
  rw [c8_main]
  constructor
  · rfl
  · simp
    decide
